import Mathlib

/-!
Verification of the Cost Governor component of the `self-optimization`
repository (`src/cost_governor.py`) against its natural-language
specification.

The Python module is shallowly embedded: JSON documents become the
inductive type `JValue`, Python `dict`s become insertion-ordered
association lists with unique keys, machine integers become `Int`/`Nat`,
Python `float` arithmetic in `_estimate_total_savings` and the governor's
bloat threshold is modelled over `ℚ` (all numbers involved are exact
decimals and the comparisons stay far from the rounding error of IEEE
doubles for the integer character counts the code feeds in), and
file-system effects (`apply_config`, `_save_state`) become explicit
state passing over a string-keyed file map together with boolean oracles
that say which I/O operations succeed.  Wall-clock timestamps and the
`logging` calls are not modelled; no claim mentions them.
-/

/-- A JSON value, the shape of `openclaw.json` and of every config patch.
Objects are insertion-ordered association lists, mirroring Python dicts
(which preserve insertion order and have unique keys). -/
inductive JValue where
  | str (s : String)
  | num (n : Int)
  | bool (b : Bool)
  | null
  | arr (xs : List JValue)
  | obj (fields : List (String × JValue))

/-- Fields of a JSON object, i.e. the representation of a Python dict. -/
abbrev JObj := List (String × JValue)

/-- Python `d.get(k)`: the value at the first (unique) occurrence of `k`. -/
def lookupJ (l : JObj) (k : String) : Option JValue :=
  (l.find? (fun p => p.1 = k)).map Prod.snd

/-- Python `d[k] = v` on an insertion-ordered dict: replace in place if the
key exists, append otherwise. -/
def setKey (l : JObj) (k : String) (v : JValue) : JObj :=
  if l.any (fun p => p.1 = k) then
    l.map (fun p => if p.1 = k then (k, v) else p)
  else
    l ++ [(k, v)]

/-- The keys of an object, in insertion order. -/
def keysOf (l : JObj) : List String := l.map Prod.fst

mutual

/-- The per-key step of `_deep_merge` (cost_governor.py:748-751): when the
existing value and the override value are both dicts the merge recurses,
otherwise the override value wins. -/
def deepMergeV : JValue → JValue → JValue
  | JValue.obj b, JValue.obj o => JValue.obj (deepMergeL b o)
  | _, v => v
termination_by _ v => sizeOf v
decreasing_by all_goals simp_wf

/-- `_deep_merge(base, override)` (cost_governor.py:744-752): start from a
copy of `base` (`result = dict(base)`, value semantics here) and fold the
entries of `override` into it. -/
def deepMergeL : JObj → JObj → JObj
  | result, [] => result
  | result, (k, v) :: rest =>
    let newV :=
      match lookupJ result k with
      | some old => deepMergeV old v
      | none => v
    deepMergeL (setKey result k newV) rest
termination_by _ o => sizeOf o
decreasing_by all_goals simp_wf <;> omega

end

/-- `_get_nested(*keys)` (cost_governor.py:111-121): traverse nested dicts;
a missing key, a JSON `null` (Python `None`) or a non-dict along the way
yields `none`, which call sites replace by their default. -/
def getNested : JValue → List String → Option JValue
  | v, [] => some v
  | JValue.obj l, k :: ks =>
    match lookupJ l k with
    | none => none
    | some JValue.null => none
    | some v => getNested v ks
  | _, _ :: _ => none

/-- Dot-path lookup in a JSON tree (the addressing scheme the spec uses for
config patches): follow object keys; fail on a missing key or a non-object. -/
def getPath : JValue → List String → Option JValue
  | v, [] => some v
  | JValue.obj l, k :: ks =>
    match lookupJ l k with
    | none => none
    | some v => getPath v ks
  | _, _ :: _ => none

/-- The patch, read as a tree of nested objects, fails to mention the path:
the traversal stays inside objects and runs into a missing key.  This is the
precise sense in which `_deep_merge` leaves a path of the base untouched. -/
def missesPath : JObj → List String → Bool
  | _, [] => false
  | l, k :: ks =>
    match lookupJ l k with
    | none => true
    | some (JValue.obj l') => missesPath l' ks
    | some _ => false

/-- `_list_changed_keys(patch)` (cost_governor.py:755-766): flatten a nested
dict into dotted leaf paths. -/
def listChangedKeys : JObj → (prefix_ : String) → List String
  | [], _ => []
  | (k, v) :: rest, pre =>
    let full := if pre = "" then k else pre ++ "." ++ k
    (match v with
     | JValue.obj sub => listChangedKeys sub full
     | _ => [full])
    ++ listChangedKeys rest pre
termination_by l _ => sizeOf l
decreasing_by
  all_goals simp_wf <;> omega

/-- Python `l[-n:]`: the suffix of the last `n` elements (the whole list if
shorter).  Used for the FIFO caps `baselines[-20:]` and `history[-50:]`. -/
def pyLast (n : Nat) (l : List α) : List α := l.drop (l.length - n)

/-- Python `int(x)` on a real number: truncation toward zero. -/
def pyTrunc (q : ℚ) : ℤ := if 0 ≤ q then ⌊q⌋ else -⌊-q⌋

/-- `_estimate_total_savings` (cost_governor.py:769-780), applied to the
`savings_pct` values of the recommendations (the code reads
`rec.get("savings_pct", 0)`; every recommendation the audit builds carries
the field).  `float` arithmetic is modelled over `ℚ`. -/
def estimateTotalSavings (savings : List ℤ) : ℤ :=
  if savings.isEmpty then 0
  else
    let remaining : ℚ :=
      savings.foldl (fun (r : ℚ) (p : ℤ) => r * (1 - (p : ℚ) / 100)) 1
    min 95 (pyTrunc ((1 - remaining) * 100))

/-- `MODEL_COSTS` (cost_governor.py:22-43): model name to
($/1M input tokens, $/1M output tokens), `float` prices as `ℚ`. -/
def MODEL_COSTS : List (String × ℚ × ℚ) :=
  [ ("claude-opus-4-6", 15, 75),
    ("anthropic/claude-opus-4-6", 15, 75),
    ("claude-sonnet-4-6", 3, 15),
    ("anthropic/claude-sonnet-4-6", 3, 15),
    ("gpt-4o", 5/2, 10),
    ("openai/gpt-4o", 5/2, 10),
    ("claude-haiku-4-5", 4/5, 4),
    ("anthropic/claude-haiku-4-5", 4/5, 4),
    ("claude-haiku-4-5-20251001", 4/5, 4),
    ("gpt-4o-mini", 3/20, 3/5),
    ("openai/gpt-4o-mini", 3/20, 3/5),
    ("gpt-mini", 3/20, 3/5),
    ("ollama/llama3.3", 0, 0),
    ("ollama/llama3.2", 0, 0),
    ("ollama/mistral", 0, 0),
    ("ollama/qwen2.5", 0, 0),
    ("ollama/deepseek-r1", 0, 0) ]

/-- `EXPENSIVE_MODELS` (cost_governor.py:45-47): input price >= 10. -/
def EXPENSIVE_MODELS : List String :=
  (MODEL_COSTS.filter (fun p => 10 ≤ p.2.1)).map Prod.fst

/-- `MID_TIER_MODELS` (cost_governor.py:48-50): input price in [0.1, 10). -/
def MID_TIER_MODELS : List String :=
  (MODEL_COSTS.filter (fun p => 1/10 ≤ p.2.1 ∧ p.2.1 < 10)).map Prod.fst

/-- `CHEAP_MODELS` (cost_governor.py:51-53): input price < 0.1. -/
def CHEAP_MODELS : List String :=
  (MODEL_COSTS.filter (fun p => p.2.1 < 1/10)).map Prod.fst

/-- `MODEL_COSTS.get(name, {})`, as an optional (input, output) pair. -/
def lookupCost (name : String) : Option (ℚ × ℚ) :=
  (MODEL_COSTS.find? (fun p => p.1 = name)).map Prod.snd

def RECOMMENDED_BOOTSTRAP_MAX_CHARS : Int := 8000
def RECOMMENDED_BOOTSTRAP_TOTAL_MAX_CHARS : Int := 30000
def DEFAULT_BOOTSTRAP_MAX_CHARS : Int := 20000
def DEFAULT_BOOTSTRAP_TOTAL_MAX_CHARS : Int := 150000

/-- `BOOTSTRAP_FILES` (cost_governor.py:67-71). -/
def BOOTSTRAP_FILES : List String :=
  [ "AGENTS.md", "SOUL.md", "TOOLS.md", "IDENTITY.md",
    "USER.md", "HEARTBEAT.md", "MEMORY.md", "BOOTSTRAP.md",
    "TASKLOG.md" ]

/-- Python substring containment `sub in s`, on character lists. -/
def listContains (pat : List Char) : List Char → Bool
  | [] => pat.isEmpty
  | c :: rest => pat.isPrefixOf (c :: rest) || listContains pat rest

/-- Python `sub in s` on strings. -/
def pyIn (sub s : String) : Bool := listContains sub.data s.data

/-- Insert a thousands separator after every third character of a reversed
digit string (helper for `fmtComma`). -/
def commaRev : List Char → List Char
  | a :: b :: c :: d :: rest => a :: b :: c :: ',' :: commaRev (d :: rest)
  | l => l

/-- Python format `f"{n:,}"` for integers: decimal digits grouped in threes
by commas. -/
def fmtComma (n : Int) : String :=
  if n < 0 then "-" ++ String.mk (commaRev (toString (-n)).data.reverse).reverse
  else String.mk (commaRev (toString n).data.reverse).reverse

/-- The fractional digits of a rational in `[0,1)` with a terminating
decimal expansion, most significant first (helper for `fmtFloat`); `fuel`
bounds the number of digits (20 is beyond any table entry). -/
def fracDigits : Nat → ℚ → List Char
  | 0, _ => []
  | fuel + 1, q =>
    if q = 0 then []
    else
      let d : ℤ := ⌊q * 10⌋
      (Char.ofNat (48 + d.toNat)) :: fracDigits fuel (q * 10 - d)

/-- Python `str(x)` for the non-negative terminating-decimal floats of the
cost table: `15.0`, `2.5`, `0.15`, ... -/
def fmtFloat (q : ℚ) : String :=
  let ip := ⌊q⌋
  let frac := q - ip
  toString ip ++ "." ++ (if frac = 0 then "0" else String.mk (fracDigits 20 frac))

/-- Round half to even, the rounding of Python's `f"{x:.0f}"` format. -/
def roundHalfEven (q : ℚ) : ℤ :=
  let f := ⌊q⌋
  let r := q - f
  if r < 1/2 then f
  else if 1/2 < r then f + 1
  else if f % 2 = 0 then f else f + 1

/-- Python `f"{x:.0f}"`. -/
def fmt0f (q : ℚ) : String := toString (roundHalfEven q)

/-- Worker for `pySplitOn`: scan for the next non-overlapping occurrence of
`sep` (non-empty), accumulating the current piece reversed; `fuel` is the
length of the remaining input, so the recursion is structural. -/
def splitOnAuxL (sep : List Char) : Nat → List Char → List Char → List (List Char)
  | 0, acc, rem => [acc.reverse ++ rem]
  | fuel + 1, acc, rem =>
    match rem with
    | [] => [acc.reverse]
    | c :: rest =>
      if sep.isPrefixOf rem then
        acc.reverse :: splitOnAuxL sep fuel [] (rem.drop sep.length)
      else
        splitOnAuxL sep fuel (c :: acc) rest

/-- Python `s.split(sep)` for a non-empty separator: the pieces between
non-overlapping occurrences of `sep`, scanned left to right. -/
def pySplitOn (s sep : String) : List String :=
  (splitOnAuxL sep.data s.data.length [] s.data).map (fun l => String.mk l)

/-- Python `s.strip()`: drop whitespace from both ends. -/
def pyStrip (s : String) : String :=
  String.mk (((s.data.dropWhile Char.isWhitespace).reverse.dropWhile
    Char.isWhitespace).reverse)

/-- Python `s.splitlines()` restricted to `\n` separators (the only line
terminator the modelled gateway logs contain): like splitting on `"\n"` but
without a trailing empty line. -/
def pySplitlines (s : String) : List String :=
  let parts := pySplitOn s "\n"
  if parts.getLastD "" = "" then parts.dropLast else parts

/-- One entry of `measure_bootstrap_files`'s `files` list
(cost_governor.py:142-148); the `path` field is omitted (it is the
workspace directory joined with `file` and no claim mentions it). -/
structure FileStat where
  file : String
  chars : Nat
  lines : Nat
  est_tokens : Nat
  deriving DecidableEq

/-- The result of `measure_bootstrap_files` (cost_governor.py:166-175). -/
structure BootstrapInfo where
  files : List FileStat
  total_chars : Nat
  total_lines : Nat
  total_est_tokens : Nat
  configured_max_per_file : Int
  configured_total_max : Int
  deriving DecidableEq

/-- Integer-valued nested config lookup with default: the pattern
`self._get_nested(..., default=d)` at the call sites that consume the value
as an integer.  Configs storing a non-integer there are outside the modelled
domain (the Python code would propagate the raw value and crash at the
comparison or format site). -/
def getIntD (cfg : JObj) (path : List String) (d : Int) : Int :=
  match getNested (JValue.obj cfg) path with
  | some (JValue.num n) => n
  | _ => d

/-- The environment a `CostGovernor` instance reads: the parsed
`openclaw.json` (the in-memory `self._config`), the workspace's bootstrap
files (name to content, for the files that exist and are readable), and the
decoded ~5KB tail of `~/.openclaw/logs/gateway.log` when that file exists
and is readable. -/
structure AuditEnv where
  config : JObj
  workspace : String → Option String
  gatewayLog : Option String

/-- `measure_bootstrap_files` (cost_governor.py:125-175): stat each present
bootstrap file (character count, `\n`-count plus a final
non-newline-terminated line, chars/4 token estimate), sort by size
descending (Python's stable `sort` with `reverse=True`), and aggregate. -/
def measureBootstrapFiles (cfg : JObj) (workspace : String → Option String) :
    BootstrapInfo :=
  let stats := BOOTSTRAP_FILES.filterMap (fun fname =>
    (workspace fname).map (fun content =>
      let chars := content.length
      let hasTrailing := content ≠ "" && !(content.data.getLast? == some (Char.ofNat 10))
      { file := fname
        chars := chars
        lines := content.data.count '\n' + (if hasTrailing then 1 else 0)
        est_tokens := chars / 4 : FileStat }))
  let total_chars := (stats.map (fun f => f.chars)).sum
  { files := stats.mergeSort (fun a b => decide (b.chars ≤ a.chars))
    total_chars := total_chars
    total_lines := (stats.map (fun f => f.lines)).sum
    total_est_tokens := total_chars / 4
    configured_max_per_file :=
      getIntD cfg ["agents", "defaults", "bootstrapMaxChars"]
        DEFAULT_BOOTSTRAP_MAX_CHARS
    configured_total_max :=
      getIntD cfg ["agents", "defaults", "bootstrapTotalMaxChars"]
        DEFAULT_BOOTSTRAP_TOTAL_MAX_CHARS }

/-- The gateway-log half of `_detect_current_model`
(cost_governor.py:404-421): given the decoded ~5KB tail of the log when the
file exists and is readable (`none` for a missing or unreadable file), scan
the lines newest-to-oldest for the most recent one containing
"agent model:" and return what follows the last occurrence, stripped; an
existing log without such a line yields `""`, a missing/unreadable log
yields `"unknown"`. -/
def detectFromLog : Option String → String
  | none => "unknown"
  | some tail =>
    match (pySplitlines tail).reverse.find? (fun l => pyIn "agent model:" l) with
    | some line => pyStrip ((pySplitOn line "agent model:").getLastD "")
    | none => ""

/-- `_detect_current_model` (cost_governor.py:396-421): a truthy
`agents.defaults.model.primary` wins; otherwise fall back to the gateway
log.  Configs whose `model.primary` is a truthy non-string are outside the
modelled domain (the Python code would return the raw value, violating the
function's own `-> str` annotation). -/
def detectCurrentModel (cfg : JObj) (gatewayLog : Option String) : String :=
  match getNested (JValue.obj cfg) ["agents", "defaults", "model", "primary"] with
  | some (JValue.str m) => if m = "" then detectFromLog gatewayLog else m
  | _ => detectFromLog gatewayLog

/-- A `Finding` dict (id, severity, title, detail). -/
structure Finding where
  id : String
  severity : String
  title : String
  detail : String
  deriving DecidableEq

/-- A `Recommendation` dict (id, impact, title, detail, savings_pct,
config_patch).  Note the source's `config_patch` values use literal dotted
keys (e.g. `"agents.defaults.model.primary"`), kept verbatim. -/
structure Recommendation where
  id : String
  impact : String
  title : String
  detail : String
  savings_pct : Int
  config_patch : JObj

/-- Rendering of `model_cost.get("input", "?")` inside an f-string: the
float price, or `"?"` when the model is not in the table. -/
def costRepr : Option ℚ → String
  | some q => fmtFloat q
  | none => "?"

/-- The result of `audit()` (cost_governor.py:384-394); the `timestamp`
field is not modelled (wall-clock time). -/
structure AuditResult where
  current_model : String
  model_cost : Option (ℚ × ℚ)
  model_cost_per_m_input : ℚ
  bootstrap_total_chars : Nat
  bootstrap_est_tokens : Nat
  findings : List Finding
  recommendations : List Recommendation
  estimated_savings_pct : Int
  bootstrap_detail : BootstrapInfo

/-- Rule 1 of `audit()` (cost_governor.py:188-223, "# 1. Check current
model"): critical finding and high-impact recommendation for an expensive
primary model, info-only finding for a mid-tier one. -/
def auditModelCheck (current_model : String) (model_cost : Option (ℚ × ℚ)) :
    List Finding × List Recommendation :=
  if current_model ∈ EXPENSIVE_MODELS then
    ([{ id := "expensive_model", severity := "critical"
        title := "Default model is expensive tier"
        detail := "Current model: " ++ current_model ++ " ($"
          ++ costRepr (model_cost.map Prod.fst) ++ "/M input, $"
          ++ costRepr (model_cost.map Prod.snd) ++ "/M output)" }],
     [{ id := "switch_default_model", impact := "high"
        title := "Switch default model to cheap/local"
        detail := "Route 80-95% of turns to a cheap model. Set agents.defaults.model.primary to \x27ollama/llama3.3\x27 (free) or \x27claude-haiku-4-5\x27 ($0.80/M). Escalate to expensive model only for complex tasks."
        savings_pct := 80
        config_patch := [("agents.defaults.model.primary", JValue.str "claude-haiku-4-5")] }])
  else if current_model ∈ MID_TIER_MODELS then
    ([{ id := "mid_tier_model", severity := "info"
        title := "Default model is mid-tier"
        detail := "Current model: " ++ current_model ++ " — reasonable, but local is free." }],
     [])
  else ([], [])

/-- Rule 2 of `audit()` (cost_governor.py:225-256, "# 2. Check bootstrap
file bloat"): warning finding when the aggregate total exceeds the
recommended ceiling; inside that branch, a medium-impact recommendation
naming up to three largest offenders when any individual file exceeds
3,000 chars. -/
def auditBloatCheck (bootstrap : BootstrapInfo) :
    List Finding × List Recommendation :=
  if RECOMMENDED_BOOTSTRAP_TOTAL_MAX_CHARS < (bootstrap.total_chars : Int) then
    let bloatFinding : Finding :=
      { id := "bootstrap_bloat", severity := "warning"
        title := "Bootstrap files exceed recommended size"
        detail := "Total: " ++ fmtComma bootstrap.total_chars ++ " chars (~"
          ++ fmtComma bootstrap.total_est_tokens
          ++ " tokens) — re-sent every turn. Recommended: <"
          ++ fmtComma RECOMMENDED_BOOTSTRAP_TOTAL_MAX_CHARS ++ " chars." }
    let big_files := bootstrap.files.filter (fun f => 3000 < f.chars)
    let names := String.intercalate ", " ((big_files.take 3).map (fun f => f.file))
    ([bloatFinding],
     if big_files.isEmpty then []
     else
       [{ id := "shrink_bootstrap", impact := "medium"
          title := "Put bootstrap files on a token diet"
          detail := "Biggest files: " ++ names ++ ". Move long policies/docs to on-demand memory/*.md files. Keep AGENTS.md to 1-2 pages of operating rules."
          savings_pct := 20
          config_patch := [("agents.defaults.bootstrapMaxChars", JValue.num RECOMMENDED_BOOTSTRAP_MAX_CHARS)] }])
  else ([], [])

/-- Rule 3 of `audit()` (cost_governor.py:258-278, "# 3. Check bootstrap
caps"): warning finding when the configured total cap exceeds the
recommended ceiling. -/
def auditCapCheck (current_max current_total_max : Int) : List Finding :=
  if RECOMMENDED_BOOTSTRAP_TOTAL_MAX_CHARS < current_total_max then
    [{ id := "high_bootstrap_cap", severity := "warning"
       title := "Bootstrap caps are too generous"
       detail := "bootstrapMaxChars=" ++ fmtComma current_max
         ++ ", bootstrapTotalMaxChars=" ++ fmtComma current_total_max
         ++ ". Recommended: " ++ fmtComma RECOMMENDED_BOOTSTRAP_MAX_CHARS
         ++ " / " ++ fmtComma RECOMMENDED_BOOTSTRAP_TOTAL_MAX_CHARS ++ "." }]
  else []

/-- The compaction value the governor reads:
`_get_nested("agents","defaults","compaction","mode", default="safeguard")`. -/
def compactionModeVal (cfg : JObj) : JValue :=
  (getNested (JValue.obj cfg) ["agents", "defaults", "compaction", "mode"]).getD
    (JValue.str "safeguard")

/-- Python `value == "safeguard"` on an arbitrary JSON value. -/
def isSafeguard : JValue → Bool
  | JValue.str s => s = "safeguard"
  | _ => false

/-- Rule 4 of `audit()` (cost_governor.py:280-308, "# 4. Check compaction
mode"): warning finding and medium-impact recommendation when the
configured (or defaulted) compaction mode equals `"safeguard"`. -/
def auditCompactionCheck (cfg : JObj) : List Finding × List Recommendation :=
  if isSafeguard (compactionModeVal cfg) then
    ([{ id := "weak_compaction", severity := "warning"
        title := "Compaction mode \x27safeguard\x27 (not default)"
        detail := "\x27default\x27 compaction summarizes earlier conversation more eagerly, preventing token growth. \x27safeguard\x27 only triggers near the context limit." }],
     [{ id := "aggressive_compaction", impact := "medium"
        title := "Switch compaction to default"
        detail := "Set agents.defaults.compaction.mode to \x27default\x27. Compacts earlier, keeping tokens/turn stable over time."
        savings_pct := 30
        config_patch := [("agents.defaults.compaction.mode", JValue.str "default")] }])
  else ([], [])

/-- Rule 5 of `audit()` (cost_governor.py:310-360, "# 5. Check heartbeat
config"): an explicitly configured expensive heartbeat model, or an unset
heartbeat model with an expensive primary, each yield a warning finding and
a medium-impact recommendation. -/
def auditHeartbeatCheck (cfg : JObj) (current_model : String) :
    List Finding × List Recommendation :=
  match getNested (JValue.obj cfg) ["agents", "defaults", "heartbeat", "model"] with
  | some (JValue.str m) =>
    if m ∈ EXPENSIVE_MODELS then
      ([{ id := "expensive_heartbeat", severity := "warning"
          title := "Heartbeat uses expensive model"
          detail := "Heartbeat model: " ++ m ++ ". Heartbeats are full agent turns — should use cheapest model." }],
       [{ id := "cheap_heartbeat", impact := "medium"
          title := "Switch heartbeat to cheap model"
          detail := "Set agents.defaults.heartbeat.model to a mini model. Heartbeats don\x27t need genius-level reasoning."
          savings_pct := 15
          config_patch := [("agents.defaults.heartbeat.model", JValue.str "claude-haiku-4-5")] }])
    else ([], [])
  | some _ => ([], [])
  | none =>
    if current_model ∈ EXPENSIVE_MODELS then
      ([{ id := "heartbeat_inherits_expensive", severity := "warning"
          title := "Heartbeat inherits expensive primary model"
          detail := "No heartbeat.model set — inherits \x27" ++ current_model ++ "\x27. Each heartbeat turn costs as much as a real user turn." }],
       [{ id := "set_heartbeat_model", impact := "medium"
          title := "Set explicit cheap heartbeat model"
          detail := "Set agents.defaults.heartbeat.model to \x27claude-haiku-4-5\x27 or \x27gpt-4o-mini\x27. Heartbeats check inbox/calendar — trivial work."
          savings_pct := 15
          config_patch := [("agents.defaults.heartbeat.model", JValue.str "claude-haiku-4-5")] }])
    else ([], [])

/-- Rule 6 of `audit()` (cost_governor.py:362-379, "# 6. Check concurrent
agents"): info finding when concurrency exceeds the fixed thresholds
(2 agents / 4 subagents). -/
def auditConcurrencyCheck (max_concurrent max_subagents : Int) : List Finding :=
  if 2 < max_concurrent ∨ 4 < max_subagents then
    [{ id := "high_concurrency", severity := "info"
       title := "High agent concurrency may multiply costs"
       detail := "maxConcurrent=" ++ toString max_concurrent
         ++ ", subagents.maxConcurrent=" ++ toString max_subagents
         ++ ". Each concurrent agent burns tokens independently." }]
  else []

/-- `audit()` (cost_governor.py:179-394): the fixed sequence of rule
checks above, each appending its findings and recommendations in source
order, then the compounded savings estimate. -/
def audit (env : AuditEnv) : AuditResult :=
  let current_model := detectCurrentModel env.config env.gatewayLog
  let model_cost := lookupCost current_model
  let fr1 := auditModelCheck current_model model_cost
  let bootstrap := measureBootstrapFiles env.config env.workspace
  let fr2 := auditBloatCheck bootstrap
  let current_max :=
    getIntD env.config ["agents", "defaults", "bootstrapMaxChars"]
      DEFAULT_BOOTSTRAP_MAX_CHARS
  let current_total_max :=
    getIntD env.config ["agents", "defaults", "bootstrapTotalMaxChars"]
      DEFAULT_BOOTSTRAP_TOTAL_MAX_CHARS
  let fr3 := auditCapCheck current_max current_total_max
  let fr4 := auditCompactionCheck env.config
  let fr5 := auditHeartbeatCheck env.config current_model
  let max_concurrent := getIntD env.config ["agents", "defaults", "maxConcurrent"] 1
  let max_subagents :=
    getIntD env.config ["agents", "defaults", "subagents", "maxConcurrent"] 1
  let fr6 := auditConcurrencyCheck max_concurrent max_subagents
  let recommendations := fr1.2 ++ fr2.2 ++ fr4.2 ++ fr5.2
  { current_model := current_model
    model_cost := model_cost
    model_cost_per_m_input := ((model_cost.map Prod.fst).getD 0)
    bootstrap_total_chars := bootstrap.total_chars
    bootstrap_est_tokens := bootstrap.total_est_tokens
    findings := fr1.1 ++ fr2.1 ++ fr3 ++ fr4.1 ++ fr5.1 ++ fr6
    recommendations := recommendations
    estimated_savings_pct :=
      estimateTotalSavings (recommendations.map (fun r => r.savings_pct))
    bootstrap_detail := bootstrap }

/-- A `Baseline` record (cost_governor.py:558-577); the `timestamp` field is
not modelled (wall-clock time). -/
structure Baseline where
  label : String
  model : String
  model_cost_per_m_input : ℚ
  bootstrap_total_chars : Nat
  bootstrap_est_tokens : Nat
  compaction_mode : JValue
  bootstrap_max_chars : Int
  bootstrap_total_max_chars : Int
  findings_count : Nat

/-- A `GovernorRunResult` (cost_governor.py:638-650); `timestamp` not
modelled. -/
structure GovResult where
  status : String
  current_model : String
  bootstrap_total_chars : Nat
  bootstrap_est_tokens : Nat
  compaction_mode : JValue
  findings_count : Nat
  alerts : List String
  actions_taken : List String
  estimated_savings_pct : Int
  recommendations_count : Nat

/-- The governor state file `cost_governor.json` (keys `baselines`,
`governor_history`, `last_governor_run`), parsed.  The JSON round trip of
`_load_state`/`_save_state` is modelled as the identity on this structure. -/
structure GovState where
  baselines : List Baseline
  governor_history : List GovResult
  last_governor_run : Option GovResult

/-- `_save_state` (cost_governor.py:732-739): write the state to a temp
path and `os.replace` it over the state file; an `OSError` is caught,
logged at warning level and swallowed, so the call always returns and on
failure the previous on-disk state survives. -/
def saveState (previous updated : GovState) (writeOk : Bool) : GovState :=
  if writeOk then updated else previous

/-- The baseline record `record_baseline` builds (cost_governor.py:557-577),
fresh from the audit and the config. -/
def mkBaseline (env : AuditEnv) (label : String) : Baseline :=
  let a := audit env
  { label := label
    model := a.current_model
    model_cost_per_m_input := a.model_cost_per_m_input
    bootstrap_total_chars := a.bootstrap_total_chars
    bootstrap_est_tokens := a.bootstrap_est_tokens
    compaction_mode := compactionModeVal env.config
    bootstrap_max_chars :=
      getIntD env.config ["agents", "defaults", "bootstrapMaxChars"]
        DEFAULT_BOOTSTRAP_MAX_CHARS
    bootstrap_total_max_chars :=
      getIntD env.config ["agents", "defaults", "bootstrapTotalMaxChars"]
        DEFAULT_BOOTSTRAP_TOTAL_MAX_CHARS
    findings_count := a.findings.length }

/-- `record_baseline` (cost_governor.py:555-586): build the baseline,
append it to the loaded state's list capped to the last 20
(`baselines[-20:]`), save (failures swallowed), and return the baseline.
The pair is (returned record, resulting on-disk state). -/
def recordBaseline (env : AuditEnv) (label : String) (state : GovState)
    (writeOk : Bool) : Baseline × GovState :=
  let baseline := mkBaseline env label
  let newState :=
    { state with baselines := pyLast 20 (state.baselines ++ [baseline]) }
  (baseline, saveState state newState writeOk)

/-- `run_governor` (cost_governor.py:596-660): audit, build the three
alert checks in source order (expensive model, bootstrap bloat versus the
first recorded baseline, compaction mode), append the run to the history
capped to the last 50 (`history[-50:]`), store it as last run, save
(failures swallowed), return the run result.  The pair is (returned
result, resulting on-disk state). -/
def runGovernor (env : AuditEnv) (state : GovState) (writeOk : Bool) :
    GovResult × GovState :=
  let a := audit env
  let alerts1 : List String :=
    if a.current_model ∈ EXPENSIVE_MODELS then
      ["Expensive model in use: " ++ a.current_model ++ " ($"
        ++ fmtFloat a.model_cost_per_m_input ++ "/M input)"]
    else []
  let alerts2 : List String :=
    match state.baselines.head? with
    | some b =>
      if 0 < b.bootstrap_total_chars
          ∧ (b.bootstrap_total_chars : ℚ) * (6/5) < (a.bootstrap_total_chars : ℚ) then
        ["Bootstrap bloat: " ++ fmtComma a.bootstrap_total_chars ++ " chars (+"
          ++ fmt0f (((a.bootstrap_total_chars : ℚ) / (b.bootstrap_total_chars : ℚ) - 1) * 100)
          ++ "% vs baseline)"]
      else []
    | none => []
  let compaction := compactionModeVal env.config
  let alerts3 : List String :=
    if isSafeguard compaction then
      ["Compaction mode \x27safeguard\x27 — should be \x27default\x27"]
    else []
  let alerts := alerts1 ++ alerts2 ++ alerts3
  let result : GovResult :=
    { status := if alerts.isEmpty then "healthy" else "needs_attention"
      current_model := a.current_model
      bootstrap_total_chars := a.bootstrap_total_chars
      bootstrap_est_tokens := a.bootstrap_est_tokens
      compaction_mode := compaction
      findings_count := a.findings.length
      alerts := alerts
      actions_taken := []
      estimated_savings_pct := a.estimated_savings_pct
      recommendations_count := a.recommendations.length }
  let newState :=
    { state with
        governor_history := pyLast 50 (state.governor_history ++ [result])
        last_governor_run := some result }
  (result, saveState state newState writeOk)

/-- A file system: path to content for the files that exist.  Contents are
Unicode strings; the config files involved are UTF-8 JSON, so the byte
level and the decoded level coincide. -/
def FS := String → Option String

/-- Write (create or overwrite) a file. -/
def setFile (fs : FS) (p : String) (c : String) : FS :=
  fun q => if q = p then some c else fs q

/-- The result dict of `apply_config` (cost_governor.py:529/542/547-551). -/
structure ApplyResult where
  success : Bool
  error : Option String
  backup_path : Option String
  keys_changed : List String

/-- `apply_config(patch, backup)` (cost_governor.py:513-551) as a state
transition on the file system.  `config` is the in-memory `self._config`
the patch is merged into; `serialize` stands for
`json.dump(..., indent=2)` plus the trailing newline, which no claim
inspects; the boolean oracles say which of the read of the live config,
the backup write, the temp-file write and the `os.replace` succeed
(`False` standing for the corresponding `OSError`).  A failed temp write
may leave a partial temp file behind; the model leaves the temp path
unchanged in that case, which is immaterial to the live config and the
backup. -/
def applyConfig (fs : FS) (configPath : String) (config patch : JObj)
    (backup : Bool) (serialize : JObj → String)
    (readOk writeBakOk writeTmpOk replaceOk : Bool) : ApplyResult × FS :=
  let afterBackup : Option (FS × Option String) :=
    if backup then
      if readOk then
        match fs configPath with
        | some original =>
          if writeBakOk then
            some (setFile fs (configPath ++ ".pre-governor.bak") original,
                  some (configPath ++ ".pre-governor.bak"))
          else none
        | none => none
      else none
    else
      some (fs, none)
  match afterBackup with
  | none =>
    ({ success := false, error := some "Backup failed"
       backup_path := none, keys_changed := [] }, fs)
  | some (fs1, bakPath) =>
    let merged := deepMergeL config patch
    if !writeTmpOk then
      ({ success := false, error := some "Write failed"
         backup_path := none, keys_changed := [] }, fs1)
    else
      let fs2 := setFile fs1 (configPath ++ ".tmp") (serialize merged)
      if !replaceOk then
        ({ success := false, error := some "Write failed"
           backup_path := none, keys_changed := [] }, fs2)
      else
        let fs3 : FS := fun q =>
          if q = configPath ++ ".tmp" then none
          else if q = configPath then some (serialize merged)
          else fs2 q
        ({ success := true, error := none, backup_path := bakPath
           keys_changed := listChangedKeys patch "" }, fs3)

/-- Python `isinstance(v, dict)`. -/
def isObjB : JValue → Bool
  | JValue.obj _ => true
  | _ => false

mutual

/-- Python-dict well-formedness of a JSON value: every object layer has
unique keys (true of every value a Python `dict` can hold). -/
def wfJV : JValue → Bool
  | JValue.obj l => wfJObj l
  | _ => true
termination_by v => sizeOf v
decreasing_by all_goals simp_wf

/-- Python-dict well-formedness of an object: the head key does not recur
and every value is well-formed. -/
def wfJObj : JObj → Bool
  | [] => true
  | (k, v) :: t => (decide (k ∉ keysOf t) && wfJV v) && wfJObj t
termination_by l => sizeOf l
decreasing_by all_goals simp_wf <;> omega

end

/-- The end-to-end scenario config of the spec (section 8): primary model
`claude-opus-4-6`, compaction `safeguard`, no explicit bootstrap caps,
`maxConcurrent = 4`, `subagents.maxConcurrent = 8`. -/
def cfgScenario : JObj :=
  [("agents", JValue.obj
    [("defaults", JValue.obj
      [("model", JValue.obj [("primary", JValue.str "claude-opus-4-6")]),
       ("compaction", JValue.obj [("mode", JValue.str "safeguard")]),
       ("maxConcurrent", JValue.num 4),
       ("subagents", JValue.obj [("maxConcurrent", JValue.num 8)])])])]

/-- The scenario environment: the config above, an empty workspace (no
bootstrap files) and no gateway log. -/
def envScenario : AuditEnv :=
  { config := cfgScenario, workspace := fun _ => none, gatewayLog := none }

/-- A patch setting only `agents.defaults.compaction.mode` (the shape
`generate_optimized_config("conservative")` produces for the compaction
fix). -/
def patchCompaction : JObj :=
  [("agents", JValue.obj
    [("defaults", JValue.obj
      [("compaction", JValue.obj [("mode", JValue.str "default")])])])]

/-- Twenty-five baseline labels, as in the spec scenario of recording 25
baselines. -/
def labels25 : List String :=
  (List.range 25).map (fun i => "baseline-" ++ toString i)

/-- A bloat-scenario environment: empty config, a single bootstrap file
`AGENTS.md` of 6 characters, no gateway log. -/
def envBloat : AuditEnv :=
  { config := []
    workspace := fun n => if n = "AGENTS.md" then some "banana" else none
    gatewayLog := none }

/-- A recorded baseline whose `bootstrap_total_chars` is 5. -/
def baseline5 : Baseline :=
  { label := "before", model := "unknown", model_cost_per_m_input := 0
    bootstrap_total_chars := 5, bootstrap_est_tokens := 1
    compaction_mode := JValue.str "safeguard", bootstrap_max_chars := 20000
    bootstrap_total_max_chars := 150000, findings_count := 0 }

/-- A recorded baseline whose `bootstrap_total_chars` is 4. -/
def baseline4 : Baseline :=
  { baseline5 with bootstrap_total_chars := 4 }

/-- Governor state whose first recorded baseline is `baseline5`. -/
def stBloat5 : GovState :=
  { baselines := [baseline5], governor_history := [], last_governor_run := none }

/-- Governor state whose first recorded baseline is `baseline4`. -/
def stBloat4 : GovState :=
  { baselines := [baseline4], governor_history := [], last_governor_run := none }

/-- A workspace with a single 30,001-character bootstrap file, enough to
exceed the recommended 30,000-character total. -/
def envBig : AuditEnv :=
  { config := []
    workspace := fun n =>
      if n = "AGENTS.md" then some (String.mk (List.replicate 30001 (Char.ofNat 120)))
      else none
    gatewayLog := none }

/-- A workspace with a single 5,000-character bootstrap file: above the
3,000-character per-file threshold but below the 30,000-character total. -/
def envSmall : AuditEnv :=
  { config := []
    workspace := fun n =>
      if n = "AGENTS.md" then some (String.mk (List.replicate 5000 (Char.ofNat 120)))
      else none
    gatewayLog := none }

/-! ## Basic lemmas about dict lookup, update and deep merge -/

theorem lookupJ_cons (a : String × JValue) (t : JObj) (k : String) :
    lookupJ (a :: t) k = if a.1 = k then some a.2 else lookupJ t k := by
  by_cases h : a.1 = k <;> simp [lookupJ, List.find?_cons, h]

theorem lookupJ_append_of_none (l₁ l₂ : JObj) (k : String)
    (h : lookupJ l₁ k = none) : lookupJ (l₁ ++ l₂) k = lookupJ l₂ k := by
  induction l₁ with
  | nil => rfl
  | cons a t ih =>
    rw [lookupJ_cons] at h
    by_cases ha : a.1 = k
    · rw [if_pos ha] at h; exact Option.noConfusion h
    · rw [if_neg ha] at h
      rw [List.cons_append, lookupJ_cons, if_neg ha]
      exact ih h

theorem lookupJ_append_of_some (l₁ l₂ : JObj) (k : String) (v : JValue)
    (h : lookupJ l₁ k = some v) : lookupJ (l₁ ++ l₂) k = some v := by
  induction l₁ with
  | nil => exact Option.noConfusion h
  | cons a t ih =>
    rw [lookupJ_cons] at h
    by_cases ha : a.1 = k
    · rw [if_pos ha] at h
      rw [List.cons_append, lookupJ_cons, if_pos ha]
      exact h
    · rw [if_neg ha] at h
      rw [List.cons_append, lookupJ_cons, if_neg ha]
      exact ih h

theorem lookupJ_eq_none_iff (l : JObj) (k : String) :
    lookupJ l k = none ↔ k ∉ keysOf l := by
  induction l with
  | nil => simp [lookupJ, keysOf]
  | cons a t ih =>
    rw [lookupJ_cons]
    by_cases ha : a.1 = k
    · simp [keysOf, ha]
    · simp only [if_neg ha, ih, keysOf, List.map_cons, List.mem_cons]
      constructor
      · intro h hk
        rcases hk with hk | hk
        · exact ha hk.symm
        · exact h hk
      · intro h hk
        exact h (Or.inr hk)

theorem any_key_eq_false (l : JObj) (k : String) (h : lookupJ l k = none) :
    l.any (fun p => p.1 = k) = false := by
  induction l with
  | nil => rfl
  | cons a t ih =>
    rw [lookupJ_cons] at h
    by_cases ha : a.1 = k
    · rw [if_pos ha] at h; exact Option.noConfusion h
    · rw [if_neg ha] at h
      simp [List.any_cons, ha, ih h]

theorem setKey_of_none (l : JObj) (k : String) (v : JValue)
    (h : lookupJ l k = none) : setKey l k v = l ++ [(k, v)] := by
  simp [setKey, any_key_eq_false l k h]

theorem lookupJ_replaceMap_self (l : JObj) (k : String) (v : JValue)
    (h : l.any (fun p => p.1 = k) = true) :
    lookupJ (l.map (fun p => if p.1 = k then (k, v) else p)) k = some v := by
  induction l with
  | nil => exact Bool.noConfusion h
  | cons a t ih =>
    by_cases ha : a.1 = k
    · simp [ha, lookupJ_cons]
    · simp only [List.any_cons, ha, decide_False, Bool.false_or] at h
      simp only [List.map_cons, if_neg ha, lookupJ_cons, ha, if_false]
      exact ih h

theorem lookupJ_replaceMap_ne (l : JObj) (k : String) (v : JValue) (q : String)
    (h : q ≠ k) :
    lookupJ (l.map (fun p => if p.1 = k then (k, v) else p)) q = lookupJ l q := by
  induction l with
  | nil => rfl
  | cons a t ih =>
    by_cases ha : a.1 = k
    · simp only [List.map_cons, if_pos ha, lookupJ_cons]
      rw [if_neg (fun hh => h hh.symm), if_neg (fun hh => h (ha ▸ hh).symm)]
      exact ih
    · simp only [List.map_cons, if_neg ha, lookupJ_cons]
      by_cases hq : a.1 = q
      · rw [if_pos hq, if_pos hq]
      · rw [if_neg hq, if_neg hq]
        exact ih

theorem lookupJ_setKey_self (l : JObj) (k : String) (v : JValue) :
    lookupJ (setKey l k v) k = some v := by
  by_cases h : l.any (fun p => p.1 = k)
  · simp only [setKey, if_pos h]
    exact lookupJ_replaceMap_self l k v h
  · simp only [setKey, if_neg h]
    have hnone : lookupJ l k = none := by
      rw [lookupJ_eq_none_iff]
      intro hk
      apply h
      rw [List.any_eq_true]
      rcases List.mem_map.mp hk with ⟨p, hp, hpk⟩
      exact ⟨p, hp, by simpa using hpk⟩
    rw [lookupJ_append_of_none _ _ _ hnone, lookupJ_cons, if_pos rfl]

theorem lookupJ_setKey_ne (l : JObj) (k : String) (v : JValue) (q : String)
    (h : q ≠ k) : lookupJ (setKey l k v) q = lookupJ l q := by
  by_cases hA : l.any (fun p => p.1 = k)
  · simp only [setKey, if_pos hA]
    exact lookupJ_replaceMap_ne l k v q h
  · simp only [setKey, if_neg hA]
    cases hv : lookupJ l q with
    | some w => rw [lookupJ_append_of_some _ _ _ _ hv]
    | none =>
      rw [lookupJ_append_of_none _ _ _ hv, lookupJ_cons,
        if_neg (fun hh => h hh.symm)]
      rfl


theorem keysOf_cons (a : String × JValue) (t : JObj) :
    keysOf (a :: t) = a.1 :: keysOf t := rfl

theorem deepMergeL_nil (r : JObj) : deepMergeL r [] = r := by
  simp [deepMergeL]

theorem deepMergeL_cons (r : JObj) (k : String) (v : JValue) (rest : JObj) :
    deepMergeL r ((k, v) :: rest)
      = deepMergeL
          (setKey r k (match lookupJ r k with
            | some old => deepMergeV old v
            | none => v)) rest := by
  simp [deepMergeL]

theorem deepMergeL_cons_none (r : JObj) (k : String) (v : JValue) (rest : JObj)
    (h : lookupJ r k = none) :
    deepMergeL r ((k, v) :: rest) = deepMergeL (setKey r k v) rest := by
  rw [deepMergeL_cons, h]

theorem deepMergeL_cons_some (r : JObj) (k : String) (v w : JValue) (rest : JObj)
    (h : lookupJ r k = some w) :
    deepMergeL r ((k, v) :: rest)
      = deepMergeL (setKey r k (deepMergeV w v)) rest := by
  rw [deepMergeL_cons, h]

theorem deepMergeV_not_both (w v : JValue)
    (h : isObjB w = false ∨ isObjB v = false) : deepMergeV w v = v := by
  cases w <;> cases v <;> simp_all [deepMergeV, isObjB]

theorem lookupJ_deepMergeL_of_not_mem (ov : JObj) :
    ∀ (base : JObj) (k : String), k ∉ keysOf ov →
      lookupJ (deepMergeL base ov) k = lookupJ base k := by
  induction ov with
  | nil => intro base k _; rw [deepMergeL_nil]
  | cons a t ih =>
    intro base k h
    obtain ⟨k', v⟩ := a
    rw [keysOf_cons, List.mem_cons] at h
    push_neg at h
    rw [deepMergeL_cons, ih _ k h.2, lookupJ_setKey_ne _ _ _ _ h.1]

theorem deepMergeL_append_of_disjoint (ov : JObj) :
    ∀ base : JObj, (keysOf ov).Nodup →
      (∀ k ∈ keysOf ov, lookupJ base k = none) →
      deepMergeL base ov = base ++ ov := by
  induction ov with
  | nil => intro base _ _; rw [deepMergeL_nil, List.append_nil]
  | cons a t ih =>
    obtain ⟨k, v⟩ := a
    intro base hnd hdis
    rw [keysOf_cons] at hnd
    have hknott : k ∉ keysOf t := (List.nodup_cons.mp hnd).1
    have htnd : (keysOf t).Nodup := (List.nodup_cons.mp hnd).2
    have hk : lookupJ base k = none := hdis k (by simp [keysOf])
    rw [deepMergeL_cons_none base k v t hk, setKey_of_none base k v hk]
    rw [ih (base ++ [(k, v)]) htnd ?_]
    · rw [List.append_assoc]
      rfl
    · intro q hq
      have hq1 : lookupJ base q = none :=
        hdis q (by rw [keysOf_cons, List.mem_cons]; exact Or.inr hq)
      have hq2 : q ≠ k := fun hqk => hknott (hqk ▸ hq)
      rw [lookupJ_append_of_none _ _ _ hq1, lookupJ_cons,
        if_neg (fun hh => hq2 hh.symm)]
      rfl

theorem lookupJ_deepMergeL_override (ov : JObj) :
    ∀ (base : JObj) (k : String) (v : JValue), (keysOf ov).Nodup →
      lookupJ ov k = some v →
      (∀ w, lookupJ base k = some w → isObjB w = false ∨ isObjB v = false) →
      lookupJ (deepMergeL base ov) k = some v := by
  induction ov with
  | nil => intro base k v _ hov _; exact Option.noConfusion hov
  | cons a t ih =>
    obtain ⟨k', v'⟩ := a
    intro base k v hnd hov hcond
    rw [keysOf_cons] at hnd
    have htnd : (keysOf t).Nodup := (List.nodup_cons.mp hnd).2
    by_cases hk : k' = k
    · subst hk
      rw [lookupJ_cons, if_pos rfl] at hov
      have hv : v' = v := by simpa using hov
      subst hv
      have hknott : k' ∉ keysOf t := (List.nodup_cons.mp hnd).1
      cases hb : lookupJ base k' with
      | none =>
        rw [deepMergeL_cons_none base k' v' t hb,
          lookupJ_deepMergeL_of_not_mem t _ k' hknott, lookupJ_setKey_self]
      | some w =>
        rw [deepMergeL_cons_some base k' v' w t hb,
          deepMergeV_not_both w v' (hcond w hb),
          lookupJ_deepMergeL_of_not_mem t _ k' hknott, lookupJ_setKey_self]
    · rw [lookupJ_cons, if_neg hk] at hov
      rw [deepMergeL_cons]
      apply ih _ k v htnd hov
      intro w hw
      rw [lookupJ_setKey_ne _ _ _ k (fun hh => hk hh.symm)] at hw
      exact hcond w hw

theorem lookupJ_deepMergeL_obj (ov : JObj) :
    ∀ (base : JObj) (k : String) (bo oo : JObj), (keysOf ov).Nodup →
      lookupJ base k = some (JValue.obj bo) →
      lookupJ ov k = some (JValue.obj oo) →
      lookupJ (deepMergeL base ov) k = some (JValue.obj (deepMergeL bo oo)) := by
  induction ov with
  | nil => intro base k bo oo _ _ hov; exact Option.noConfusion hov
  | cons a t ih =>
    obtain ⟨k', v'⟩ := a
    intro base k bo oo hnd hbase hov
    rw [keysOf_cons] at hnd
    have htnd : (keysOf t).Nodup := (List.nodup_cons.mp hnd).2
    by_cases hk : k' = k
    · subst hk
      rw [lookupJ_cons, if_pos rfl] at hov
      have hv : v' = JValue.obj oo := by simpa using hov
      subst hv
      have hknott : k' ∉ keysOf t := (List.nodup_cons.mp hnd).1
      rw [deepMergeL_cons_some base k' _ _ t hbase,
        show deepMergeV (JValue.obj bo) (JValue.obj oo)
          = JValue.obj (deepMergeL bo oo) from by simp [deepMergeV],
        lookupJ_deepMergeL_of_not_mem t _ k' hknott, lookupJ_setKey_self]
    · rw [lookupJ_cons, if_neg hk] at hov
      rw [deepMergeL_cons]
      apply ih _ k bo oo htnd ?_ hov
      rw [lookupJ_setKey_ne _ _ _ k (fun hh => hk hh.symm)]
      exact hbase

theorem savings_foldl_bounds (l : List ℤ) :
    ∀ r : ℚ, 0 ≤ r → r ≤ 1 → (∀ p ∈ l, 0 ≤ p ∧ p ≤ 100) →
      0 ≤ l.foldl (fun (r : ℚ) (p : ℤ) => r * (1 - (p : ℚ) / 100)) r ∧
        l.foldl (fun (r : ℚ) (p : ℤ) => r * (1 - (p : ℚ) / 100)) r ≤ 1 := by
  induction l with
  | nil => intro r hr0 hr1 _; exact ⟨hr0, hr1⟩
  | cons p t ih =>
    intro r hr0 hr1 h
    have hp := h p (List.mem_cons_self p t)
    have hp0 : (0 : ℚ) ≤ (p : ℚ) := by exact_mod_cast hp.1
    have hp100 : (p : ℚ) ≤ 100 := by exact_mod_cast hp.2
    have h1 : (0 : ℚ) ≤ 1 - (p : ℚ) / 100 := by
      have : (p : ℚ) / 100 ≤ 1 := by
        rw [div_le_one (by norm_num : (0:ℚ) < 100)]
        exact hp100
      linarith
    have h2 : 1 - (p : ℚ) / 100 ≤ 1 := by
      have : (0 : ℚ) ≤ (p : ℚ) / 100 := div_nonneg hp0 (by norm_num)
      linarith
    rw [List.foldl_cons]
    exact ih (r * (1 - (p : ℚ) / 100)) (mul_nonneg hr0 h1)
      (mul_le_one₀ hr1 h1 h2) (fun q hq => h q (List.mem_cons_of_mem _ hq))

/-- C1: `_estimate_total_savings` compounds the savings multiplicatively as
`1 - product(1 - pct_i/100)`, capped above at 95; the empty list gives 0 and
two 50% recommendations give 75; the result is at most 95 for every input,
and lies in `[0, 95]` whenever every `savings_pct` lies in `[0, 100]` (the
range the data model prescribes).  For values outside that range the result
can leave the interval (see the counterexample). -/
theorem estimate_total_savings_spec :
    estimateTotalSavings [] = 0 ∧
    estimateTotalSavings [50, 50] = 75 ∧
    (∀ l : List ℤ, estimateTotalSavings l ≤ 95) ∧
    (∀ l : List ℤ, (∀ p ∈ l, 0 ≤ p ∧ p ≤ 100) → 0 ≤ estimateTotalSavings l) := by
  refine ⟨rfl, ?_, ?_, ?_⟩
  · norm_num [estimateTotalSavings, pyTrunc, List.foldl]
  · intro l
    by_cases hl : l.isEmpty
    · simp [estimateTotalSavings, hl]
    · simp only [estimateTotalSavings, hl, Bool.false_eq_true, if_false]
      exact min_le_left _ _
  · intro l h
    by_cases hl : l.isEmpty
    · simp [estimateTotalSavings, hl]
    · simp only [estimateTotalSavings, hl, Bool.false_eq_true, if_false]
      have hb := savings_foldl_bounds l 1 (by norm_num) (by norm_num) h
      have h100 : (0 : ℚ) ≤
          (1 - l.foldl (fun (r : ℚ) (p : ℤ) => r * (1 - (p : ℚ) / 100)) 1) * 100 := by
        have := hb.2
        nlinarith
      refine le_min (by norm_num) ?_
      rw [pyTrunc, if_pos h100]
      exact Int.floor_nonneg.mpr h100

/-- Witness for C1: the nonnegativity conjunct applied at a concrete list
with in-range percentages. -/
theorem estimate_total_savings_spec_witness :
    (∀ p ∈ ([80, 30, 15] : List ℤ), 0 ≤ p ∧ p ≤ 100) ∧
      0 ≤ estimateTotalSavings [80, 30, 15] :=
  ⟨by decide, estimate_total_savings_spec.2.2.2 [80, 30, 15] (by decide)⟩

/-- Counterexample for C1: two recommendations with `savings_pct = 300`
drive the result to −300, outside `[0, 95]`, so the result is not in
`[0, 95]` "regardless of the magnitude of the savings_pct values". -/
theorem estimate_total_savings_range_counterexample :
    estimateTotalSavings [300, 300] = -300 ∧
      ¬ (0 ≤ estimateTotalSavings [300, 300] ∧
          estimateTotalSavings [300, 300] ≤ 95) := by
  have h : estimateTotalSavings [300, 300] = -300 := by
    norm_num [estimateTotalSavings, pyTrunc, List.foldl]
  refine ⟨h, ?_⟩
  rw [h]
  decide

/-- C4: `_deep_merge(base, override)` returns a new dict (the source copies
`base` via `dict(base)`, so `base` is never mutated; the embedding is pure
and `base` appears unchanged in the statement): for key-disjoint dicts the
result is their union; for a key in both whose values are not both dicts the
override value wins; for a key in both whose values are both dicts the merge
recurses; and `_deep_merge({"a":{"x":1}}, {"a":{"y":2}})
= {"a":{"x":1,"y":2}}`. -/
theorem deep_merge_spec (base ov : JObj) (hnd : (keysOf ov).Nodup) :
    ((∀ k ∈ keysOf ov, lookupJ base k = none) → deepMergeL base ov = base ++ ov) ∧
    (∀ (k : String) (v : JValue), lookupJ ov k = some v →
      (∀ w, lookupJ base k = some w → isObjB w = false ∨ isObjB v = false) →
      lookupJ (deepMergeL base ov) k = some v) ∧
    (∀ (k : String) (bo oo : JObj), lookupJ base k = some (JValue.obj bo) →
      lookupJ ov k = some (JValue.obj oo) →
      lookupJ (deepMergeL base ov) k = some (JValue.obj (deepMergeL bo oo))) ∧
    deepMergeL [("a", JValue.obj [("x", JValue.num 1)])]
        [("a", JValue.obj [("y", JValue.num 2)])]
      = [("a", JValue.obj [("x", JValue.num 1), ("y", JValue.num 2)])] := by
  refine ⟨fun hdis => deepMergeL_append_of_disjoint ov base hnd hdis,
    fun k v hov hcond => lookupJ_deepMergeL_override ov base k v hnd hov hcond,
    fun k bo oo hb hov => lookupJ_deepMergeL_obj ov base k bo oo hnd hb hov,
    ?_⟩
  simp [deepMergeL, deepMergeV, setKey, lookupJ, List.find?]

/-- Witness for C4: the disjoint-union conjunct at concrete one-entry
dicts. -/
theorem deep_merge_spec_witness :
    deepMergeL [("a", JValue.num 1)] [("b", JValue.num 2)]
      = [("a", JValue.num 1), ("b", JValue.num 2)] :=
  (deep_merge_spec [("a", JValue.num 1)] [("b", JValue.num 2)]
      (by simp [keysOf])).1
    (by
      intro k hk
      simp [keysOf] at hk
      subst hk
      rfl)

theorem getPath_cons_some (l : JObj) (k : String) (ks : List String) (v : JValue)
    (h : lookupJ l k = some v) :
    getPath (JValue.obj l) (k :: ks) = getPath v ks := by
  simp [getPath, h]

theorem getPath_cons_none (l : JObj) (k : String) (ks : List String)
    (h : lookupJ l k = none) :
    getPath (JValue.obj l) (k :: ks) = none := by
  simp [getPath, h]

theorem wfJObj_parts (k : String) (v : JValue) (t : JObj)
    (h : wfJObj ((k, v) :: t) = true) :
    k ∉ keysOf t ∧ wfJV v = true ∧ wfJObj t = true := by
  have := by simpa [wfJObj] using h
  tauto

theorem wfJObj_nodup (l : JObj) (h : wfJObj l = true) : (keysOf l).Nodup := by
  induction l with
  | nil => simp [keysOf]
  | cons a t ih =>
    obtain ⟨k, v⟩ := a
    obtain ⟨h1, _, h3⟩ := wfJObj_parts k v t h
    rw [keysOf_cons]
    exact List.nodup_cons.mpr ⟨h1, ih h3⟩

theorem wfJObj_lookup (l : JObj) (k : String) (l' : JObj)
    (hwf : wfJObj l = true) (hlk : lookupJ l k = some (JValue.obj l')) :
    wfJObj l' = true := by
  induction l with
  | nil => exact Option.noConfusion hlk
  | cons a t ih =>
    obtain ⟨k0, v⟩ := a
    obtain ⟨_, h2, h3⟩ := wfJObj_parts k0 v t hwf
    rw [lookupJ_cons] at hlk
    by_cases hk : k0 = k
    · rw [if_pos hk] at hlk
      have hv : v = JValue.obj l' := by simpa using hlk
      subst hv
      simpa [wfJV] using h2
    · rw [if_neg hk] at hlk
      exact ih h3 hlk

theorem missesPath_getPath_none (p : List String) :
    ∀ l : JObj, missesPath l p = true → getPath (JValue.obj l) p = none := by
  induction p with
  | nil => intro l h; simp [missesPath] at h
  | cons k ks ih =>
    intro l h
    cases hlk : lookupJ l k with
    | none => exact getPath_cons_none _ _ _ hlk
    | some v =>
      cases v with
      | obj l' =>
        have h' : missesPath l' ks = true := by simpa [missesPath, hlk] using h
        rw [getPath_cons_some _ _ _ _ hlk]
        exact ih l' h'
      | str s => simp [missesPath, hlk] at h
      | num n => simp [missesPath, hlk] at h
      | bool b => simp [missesPath, hlk] at h
      | null => simp [missesPath, hlk] at h
      | arr xs => simp [missesPath, hlk] at h

/-- C5 (amended): the merge `apply_config` performs
(`merged = _deep_merge(self._config, patch)`, cost_governor.py:532) never
deletes an existing key the patch does not mention, where "the patch does
not mention the dot-path" means precisely that walking the patch as a tree
of nested dicts along the path stays inside dicts and runs into a missing
key (`missesPath`): every such path keeps its previous value (present or
not).  A patch that replaces an interior dict with a leaf does delete the
paths beneath it even though their dotted names never appear in the patch
(see the counterexample). -/
theorem apply_patch_frame (p : List String) :
    ∀ config patch : JObj, wfJObj patch = true → missesPath patch p = true →
      getPath (JValue.obj (deepMergeL config patch)) p
        = getPath (JValue.obj config) p := by
  induction p with
  | nil => intro config patch _ h; simp [missesPath] at h
  | cons k ks ih =>
    intro config patch hwf h
    cases hpk : lookupJ patch k with
    | none =>
      have hmem : k ∉ keysOf patch := (lookupJ_eq_none_iff _ _).mp hpk
      have hL := lookupJ_deepMergeL_of_not_mem patch config k hmem
      cases hck : lookupJ config k with
      | none =>
        rw [getPath_cons_none _ _ _ (hL.trans hck), getPath_cons_none _ _ _ hck]
      | some w =>
        rw [getPath_cons_some _ _ _ _ (hL.trans hck), getPath_cons_some _ _ _ _ hck]
    | some v =>
      have hnd : (keysOf patch).Nodup := wfJObj_nodup patch hwf
      cases v with
      | obj l' =>
        have hmiss : missesPath l' ks = true := by simpa [missesPath, hpk] using h
        have hwf' : wfJObj l' = true := wfJObj_lookup patch k l' hwf hpk
        cases hck : lookupJ config k with
        | none =>
          have hL := lookupJ_deepMergeL_override patch config k (JValue.obj l')
            hnd hpk (fun w hw => by rw [hck] at hw; exact Option.noConfusion hw)
          rw [getPath_cons_some _ _ _ _ hL, getPath_cons_none _ _ _ hck]
          exact missesPath_getPath_none ks l' hmiss
        | some w =>
          cases w with
          | obj bo =>
            rw [getPath_cons_some _ _ _ _
                (lookupJ_deepMergeL_obj patch config k bo l' hnd hck hpk),
              getPath_cons_some _ _ _ _ hck]
            exact ih bo l' hwf' hmiss
          | str s =>
            have hL := lookupJ_deepMergeL_override patch config k (JValue.obj l')
              hnd hpk (fun w' hw' => by
                rw [hck] at hw'
                have : w' = JValue.str s := by simpa using hw'.symm
                subst this
                exact Or.inl rfl)
            rw [getPath_cons_some _ _ _ _ hL, getPath_cons_some _ _ _ _ hck,
              missesPath_getPath_none ks l' hmiss]
            cases ks with
            | nil => simp [missesPath] at hmiss
            | cons k2 ks2 => rfl
          | num n =>
            have hL := lookupJ_deepMergeL_override patch config k (JValue.obj l')
              hnd hpk (fun w' hw' => by
                rw [hck] at hw'
                have : w' = JValue.num n := by simpa using hw'.symm
                subst this
                exact Or.inl rfl)
            rw [getPath_cons_some _ _ _ _ hL, getPath_cons_some _ _ _ _ hck,
              missesPath_getPath_none ks l' hmiss]
            cases ks with
            | nil => simp [missesPath] at hmiss
            | cons k2 ks2 => rfl
          | bool b =>
            have hL := lookupJ_deepMergeL_override patch config k (JValue.obj l')
              hnd hpk (fun w' hw' => by
                rw [hck] at hw'
                have : w' = JValue.bool b := by simpa using hw'.symm
                subst this
                exact Or.inl rfl)
            rw [getPath_cons_some _ _ _ _ hL, getPath_cons_some _ _ _ _ hck,
              missesPath_getPath_none ks l' hmiss]
            cases ks with
            | nil => simp [missesPath] at hmiss
            | cons k2 ks2 => rfl
          | null =>
            have hL := lookupJ_deepMergeL_override patch config k (JValue.obj l')
              hnd hpk (fun w' hw' => by
                rw [hck] at hw'
                have : w' = JValue.null := by simpa using hw'.symm
                subst this
                exact Or.inl rfl)
            rw [getPath_cons_some _ _ _ _ hL, getPath_cons_some _ _ _ _ hck,
              missesPath_getPath_none ks l' hmiss]
            cases ks with
            | nil => simp [missesPath] at hmiss
            | cons k2 ks2 => rfl
          | arr xs =>
            have hL := lookupJ_deepMergeL_override patch config k (JValue.obj l')
              hnd hpk (fun w' hw' => by
                rw [hck] at hw'
                have : w' = JValue.arr xs := by simpa using hw'.symm
                subst this
                exact Or.inl rfl)
            rw [getPath_cons_some _ _ _ _ hL, getPath_cons_some _ _ _ _ hck,
              missesPath_getPath_none ks l' hmiss]
            cases ks with
            | nil => simp [missesPath] at hmiss
            | cons k2 ks2 => rfl
      | str s => simp [missesPath, hpk] at h
      | num n => simp [missesPath, hpk] at h
      | bool b => simp [missesPath, hpk] at h
      | null => simp [missesPath, hpk] at h
      | arr xs => simp [missesPath, hpk] at h

/-- Witness for C5: a patch that sets only
`agents.defaults.compaction.mode` leaves the sibling
`agents.defaults.maxConcurrent` unchanged at 4. -/
theorem apply_patch_frame_witness :
    wfJObj patchCompaction = true ∧
    missesPath patchCompaction ["agents", "defaults", "maxConcurrent"] = true ∧
    getPath (JValue.obj (deepMergeL cfgScenario patchCompaction))
        ["agents", "defaults", "maxConcurrent"] = some (JValue.num 4) := by
  have h1 : wfJObj patchCompaction = true := by
    simp [patchCompaction, wfJObj, wfJV, keysOf]
  have h2 : missesPath patchCompaction ["agents", "defaults", "maxConcurrent"]
      = true := by decide
  refine ⟨h1, h2, ?_⟩
  rw [apply_patch_frame ["agents", "defaults", "maxConcurrent"]
    cfgScenario patchCompaction h1 h2]
  rfl

/-- Counterexample for C5 as literally stated: with prior config
`{"a": {"b": 1}}` and patch `{"a": 5}` the dot-path `a.b` is present in the
prior config and absent from the patch (the patch never mentions `a.b`),
yet the merged config no longer maps it to 1 — replacing an interior dict
by a leaf deletes the keys beneath it. -/
theorem apply_patch_frame_counterexample :
    getPath (JValue.obj [("a", JValue.obj [("b", JValue.num 1)])]) ["a", "b"]
        = some (JValue.num 1) ∧
    getPath (JValue.obj [("a", JValue.num 5)]) ["a", "b"] = none ∧
    getPath (JValue.obj (deepMergeL [("a", JValue.obj [("b", JValue.num 1)])]
        [("a", JValue.num 5)])) ["a", "b"] = none := by
  refine ⟨rfl, rfl, ?_⟩
  have h : deepMergeL [("a", JValue.obj [("b", JValue.num 1)])]
      [("a", JValue.num 5)] = [("a", JValue.num 5)] := by
    simp [deepMergeL, deepMergeV, setKey, lookupJ, List.find?]
  rw [h]
  rfl

theorem pyLast_length_le (n : Nat) (l : List α) : (pyLast n l).length ≤ n := by
  simp only [pyLast, List.length_drop]
  omega

theorem pyLast_eq_self {n : Nat} {l : List α} (h : l.length ≤ n) :
    pyLast n l = l := by
  simp [pyLast, Nat.sub_eq_zero_of_le h]

theorem suffix_eq_of_length {L l₁ l₂ : List α} (h1 : l₁ <:+ L) (h2 : l₂ <:+ L)
    (h : l₁.length = l₂.length) : l₁ = l₂ := by
  obtain ⟨s, rfl⟩ := h1
  obtain ⟨t, ht⟩ := h2
  have hlen : t.length = s.length := by
    have := congrArg List.length ht
    simp only [List.length_append] at this
    omega
  exact ((List.append_inj ht hlen).2).symm

theorem pyLast_suffix (n : Nat) (l : List α) : pyLast n l <:+ l :=
  List.drop_suffix _ _

theorem pyLast_append_left (n : Nat) (A B : List α) :
    pyLast n (pyLast n A ++ B) = pyLast n (A ++ B) := by
  apply suffix_eq_of_length (L := A ++ B)
  · exact (pyLast_suffix n _).trans
      ⟨A.take (A.length - n), by
        rw [← List.append_assoc]
        congr 1
        exact List.take_append_drop _ A⟩
  · exact pyLast_suffix n _
  · simp only [List.length_drop, List.length_append, pyLast]
    omega

theorem recordBaseline_state_baselines (env : AuditEnv) (label : String)
    (st : GovState) :
    ((recordBaseline env label st true).2).baselines
      = pyLast 20 (st.baselines ++ [mkBaseline env label]) := rfl

theorem record_baselines_fold (env : AuditEnv) (labels : List String) :
    ∀ st : GovState, st.baselines.length ≤ 20 →
      (labels.foldl (fun s lbl => (recordBaseline env lbl s true).2) st).baselines
        = pyLast 20 (st.baselines ++ labels.map (mkBaseline env)) := by
  induction labels with
  | nil =>
    intro st h
    simp only [List.foldl_nil, List.map_nil, List.append_nil]
    exact (pyLast_eq_self h).symm
  | cons lbl t ih =>
    intro st h
    rw [List.foldl_cons,
      ih _ (by rw [recordBaseline_state_baselines]; exact pyLast_length_le _ _),
      recordBaseline_state_baselines, pyLast_append_left, List.append_assoc,
      List.map_cons]
    rfl

/-- C6: the baselines list and the governor history are FIFO-capped at
write time: after a successful `record_baseline` save the stored list has
length ≤ 20, after a successful `run_governor` save the stored history has
length ≤ 50; starting from a state within the cap, recording a sequence of
baselines retains exactly the most recent 20 in insertion order
(`pyLast 20`, i.e. the suffix of the append sequence — the oldest entries
are evicted first); in particular recording 25 baselines into an empty
state leaves exactly the most recent 20 (the first 5 are dropped). -/
theorem fifo_caps_spec :
    (∀ (env : AuditEnv) (label : String) (st : GovState),
      ((recordBaseline env label st true).2.baselines).length ≤ 20) ∧
    (∀ (env : AuditEnv) (st : GovState),
      ((runGovernor env st true).2.governor_history).length ≤ 50) ∧
    (∀ (env : AuditEnv) (labels : List String) (st : GovState),
      st.baselines.length ≤ 20 →
      (labels.foldl (fun s lbl => (recordBaseline env lbl s true).2) st).baselines
        = pyLast 20 (st.baselines ++ labels.map (mkBaseline env))) ∧
    (∀ (env : AuditEnv) (labels : List String), labels.length = 25 →
      (labels.foldl (fun s lbl => (recordBaseline env lbl s true).2)
          ⟨[], [], none⟩).baselines
        = (labels.map (mkBaseline env)).drop 5) := by
  refine ⟨?_, ?_, ?_, ?_⟩
  · intro env label st
    rw [recordBaseline_state_baselines]
    exact pyLast_length_le _ _
  · intro env st
    exact pyLast_length_le 50 _
  · intro env labels st h
    exact record_baselines_fold env labels st h
  · intro env labels h
    rw [record_baselines_fold env labels ⟨[], [], none⟩ (by simp)]
    simp only [List.nil_append, pyLast, List.length_map, h]

/-- Witness for C6: recording the 25 scenario labels into an empty state
leaves exactly the most recent 20 baselines. -/
theorem fifo_caps_spec_witness :
    (labels25.foldl
        (fun s lbl => (recordBaseline envScenario lbl s true).2)
        ⟨[], [], none⟩).baselines
      = (labels25.map (mkBaseline envScenario)).drop 5 :=
  fifo_caps_spec.2.2.2 envScenario labels25 rfl

theorem config_ne_bak (s : String) : s ≠ s ++ ".pre-governor.bak" := by
  intro h
  have hl := congrArg String.length h
  rw [String.length_append] at hl
  have : (".pre-governor.bak" : String).length = 17 := by decide
  omega

theorem config_ne_tmp (s : String) : s ≠ s ++ ".tmp" := by
  intro h
  have hl := congrArg String.length h
  rw [String.length_append] at hl
  have : (".tmp" : String).length = 4 := by decide
  omega

theorem bak_ne_tmp (s : String) : s ++ ".pre-governor.bak" ≠ s ++ ".tmp" := by
  intro h
  have hl := congrArg String.length h
  rw [String.length_append, String.length_append] at hl
  have h1 : (".pre-governor.bak" : String).length = 17 := by decide
  have h2 : (".tmp" : String).length = 4 := by decide
  omega

/-- C3: with `backup=true`, `apply_config` (cost_governor.py:513-551)
(a) fails closed when the live config cannot be read or the backup cannot
be written: `success=false` and the file system is untouched;
(b) whenever the call changes the live config file at all, the sibling
`<config_path>.pre-governor.bak` holds a byte-identical copy of the
pre-call config — the backup is written before any modification;
(c) when the temp-file write or the rename fails, `success=false` and the
live config file still has its pre-call content (the merged result only
ever reaches the live path through the final `os.replace`);
(d) on success the backup file is byte-identical to the pre-call config. -/
theorem apply_config_backup_spec
    (fs : FS) (configPath : String) (config patch : JObj)
    (serialize : JObj → String) (readOk writeBakOk writeTmpOk replaceOk : Bool) :
    ((fs configPath = none ∨ readOk = false ∨ writeBakOk = false) →
      (applyConfig fs configPath config patch true serialize
          readOk writeBakOk writeTmpOk replaceOk).1.success = false ∧
      (applyConfig fs configPath config patch true serialize
          readOk writeBakOk writeTmpOk replaceOk).2 = fs) ∧
    (∀ original, fs configPath = some original →
      (applyConfig fs configPath config patch true serialize
          readOk writeBakOk writeTmpOk replaceOk).2 configPath ≠ some original →
      (applyConfig fs configPath config patch true serialize
          readOk writeBakOk writeTmpOk replaceOk).2
          (configPath ++ ".pre-governor.bak") = some original) ∧
    ((writeTmpOk = false ∨ replaceOk = false) →
      (applyConfig fs configPath config patch true serialize
          readOk writeBakOk writeTmpOk replaceOk).1.success = false ∧
      (applyConfig fs configPath config patch true serialize
          readOk writeBakOk writeTmpOk replaceOk).2 configPath
        = fs configPath) ∧
    ((applyConfig fs configPath config patch true serialize
          readOk writeBakOk writeTmpOk replaceOk).1.success = true →
      ∀ original, fs configPath = some original →
      (applyConfig fs configPath config patch true serialize
          readOk writeBakOk writeTmpOk replaceOk).2
          (configPath ++ ".pre-governor.bak") = some original) := by
  cases readOk with
  | false =>
    simp only [applyConfig, if_true, if_false, Bool.false_eq_true]
    refine ⟨fun _ => ⟨by trivial, by trivial⟩, ?_, fun _ => ⟨by trivial, by trivial⟩, ?_⟩
    · intro original horig hne
      exact absurd horig hne
    · intro hsucc
      simp_all
  | true =>
    cases hfs : fs configPath with
    | none =>
      simp only [applyConfig, hfs, if_true]
      refine ⟨fun _ => ⟨by trivial, by trivial⟩, ?_, fun _ => ⟨by trivial, by trivial⟩, ?_⟩
      · intro original horig
        exact Option.noConfusion horig
      · intro hsucc
        simp_all
    | some orig =>
      cases writeBakOk with
      | false =>
        simp only [applyConfig, hfs, if_true, if_false, Bool.false_eq_true]
        refine ⟨fun _ => ⟨by trivial, by trivial⟩, ?_, fun _ => ⟨by trivial, by trivial⟩, ?_⟩
        · intro original horig hne
          exact absurd horig hne
        · intro hsucc
          simp_all
      | true =>
        have hbak : setFile fs (configPath ++ ".pre-governor.bak") orig
            (configPath ++ ".pre-governor.bak") = some orig := by
          simp [setFile]
        have hbakc : setFile fs (configPath ++ ".pre-governor.bak") orig
            configPath = fs configPath := by
          rw [setFile, if_neg (fun hh => config_ne_bak configPath hh)]
        cases writeTmpOk with
        | false =>
          simp only [applyConfig, hfs, if_true, Bool.not_false]
          refine ⟨?_, ?_, ?_, ?_⟩
          · rintro (h | h | h) <;> simp_all
          · intro original horig _
            cases horig
            exact hbak
          · intro _
            exact ⟨by trivial, hbakc.trans hfs⟩
          · intro hsucc
            simp_all
        | true =>
          have htmpc : setFile
              (setFile fs (configPath ++ ".pre-governor.bak") orig)
              (configPath ++ ".tmp") (serialize (deepMergeL config patch))
              configPath = fs configPath := by
            rw [setFile, if_neg (fun hh => config_ne_tmp configPath hh)]
            exact hbakc
          have htmpb : setFile
              (setFile fs (configPath ++ ".pre-governor.bak") orig)
              (configPath ++ ".tmp") (serialize (deepMergeL config patch))
              (configPath ++ ".pre-governor.bak") = some orig := by
            rw [setFile, if_neg (bak_ne_tmp configPath)]
            exact hbak
          cases replaceOk with
          | false =>
            simp only [applyConfig, hfs, if_true, Bool.not_true, Bool.not_false,
              Bool.false_eq_true, if_false]
            refine ⟨?_, ?_, ?_, ?_⟩
            · rintro (h | h | h) <;> simp_all
            · intro original horig _
              cases horig
              exact htmpb
            · intro _
              exact ⟨by trivial, htmpc.trans hfs⟩
            · intro hsucc
              simp_all
          | true =>
            simp only [applyConfig, hfs, if_true, Bool.not_true,
              Bool.false_eq_true, if_false]
            refine ⟨?_, ?_, ?_, ?_⟩
            · rintro (h | h | h) <;> simp_all
            · intro original horig _
              cases horig
              rw [if_neg (bak_ne_tmp configPath),
                if_neg (fun hh => (config_ne_bak configPath) hh.symm)]
              exact htmpb
            · rintro (h | h) <;> simp_all
            · intro _ original horig
              cases horig
              rw [if_neg (bak_ne_tmp configPath),
                if_neg (fun hh => (config_ne_bak configPath) hh.symm)]
              exact htmpb

/-- Witness for C3: a successful backed-up apply on a one-file file system
produces a backup equal to the pre-call config. -/
theorem apply_config_backup_spec_witness :
    (fun p => if p = "openclaw.json" then some "{}" else none : FS)
        "openclaw.json" = some "{}" ∧
    (applyConfig (fun p => if p = "openclaw.json" then some "{}" else none)
        "openclaw.json" [] [] true (fun _ => "MERGED")
        true true true true).2 ("openclaw.json" ++ ".pre-governor.bak")
      = some "{}" :=
  ⟨rfl,
    (apply_config_backup_spec
        (fun p => if p = "openclaw.json" then some "{}" else none)
        "openclaw.json" [] [] (fun _ => "MERGED")
        true true true true).2.2.2 rfl "{}" rfl⟩

/-- C10: state-persistence failures are swallowed and never change the
returned value: `_save_state` catches the `OSError` (modelled by the
`writeOk` oracle) and returns normally, leaving the previous on-disk state
in place; `record_baseline` returns the freshly built baseline record and
`run_governor` the freshly built run result whether or not the save
succeeded — the functions are total, no exception reaches the caller. -/
theorem save_state_failure_swallowed :
    (∀ previous updated : GovState, saveState previous updated false = previous) ∧
    (∀ (env : AuditEnv) (label : String) (st : GovState) (ok : Bool),
      (recordBaseline env label st ok).1 = mkBaseline env label) ∧
    (∀ (env : AuditEnv) (st : GovState) (ok : Bool),
      (runGovernor env st ok).1 = (runGovernor env st true).1) :=
  ⟨fun _ _ => rfl, fun _ _ _ _ => rfl, fun _ _ _ => rfl⟩

/-- C7 (amended): `_detect_current_model` precedence: a non-empty string
`agents.defaults.model.primary` wins; otherwise the decoded tail of the
gateway log is scanned newest-to-oldest for the most recent line containing
"agent model:", returning what follows its last occurrence, stripped; when
the log file is missing or unreadable the result is `"unknown"` — but when
the log exists and no line matches, the result is the empty string `""`,
not `"unknown"` (cost_governor.py:418 returns `""` inside the try block;
the final `return "unknown"` is reached only when the file is missing or
the read raises `OSError`). -/
theorem detect_current_model_spec (cfg : JObj) (log : Option String) :
    (∀ m : String,
      getNested (JValue.obj cfg) ["agents", "defaults", "model", "primary"]
        = some (JValue.str m) → m ≠ "" → detectCurrentModel cfg log = m) ∧
    (getNested (JValue.obj cfg) ["agents", "defaults", "model", "primary"] = none →
      log = none → detectCurrentModel cfg log = "unknown") ∧
    (∀ t : String,
      getNested (JValue.obj cfg) ["agents", "defaults", "model", "primary"] = none →
      log = some t →
      (∀ line ∈ pySplitlines t, pyIn "agent model:" line = false) →
      detectCurrentModel cfg log = "") ∧
    (∀ t line : String,
      getNested (JValue.obj cfg) ["agents", "defaults", "model", "primary"] = none →
      log = some t →
      (pySplitlines t).reverse.find? (fun l => pyIn "agent model:" l) = some line →
      detectCurrentModel cfg log
        = pyStrip ((pySplitOn line "agent model:").getLastD "")) := by
  refine ⟨?_, ?_, ?_, ?_⟩
  · intro m h hm
    simp [detectCurrentModel, h, hm]
  · intro h hlog
    subst hlog
    simp [detectCurrentModel, h, detectFromLog]
  · intro t h hlog hall
    subst hlog
    have hfind : (pySplitlines t).reverse.find?
        (fun l => pyIn "agent model:" l) = none := by
      rw [List.find?_eq_none]
      intro line hline
      simp [hall line (List.mem_reverse.mp hline)]
    simp [detectCurrentModel, h, detectFromLog, hfind]
  · intro t line h hlog hfind
    subst hlog
    simp [detectCurrentModel, h, detectFromLog, hfind]

/-- Witness for C7: the config-first conjunct and the log-scan conjunct at
concrete inputs. -/
theorem detect_current_model_spec_witness :
    detectCurrentModel cfgScenario (some "x") = "claude-opus-4-6" ∧
    detectCurrentModel []
        (some "boot\n[gateway] agent model: anthropic/claude-opus-4-6\nready\n")
      = "anthropic/claude-opus-4-6" := by
  constructor
  · exact (detect_current_model_spec cfgScenario (some "x")).1
      "claude-opus-4-6" rfl (by decide)
  · have h := (detect_current_model_spec []
        (some "boot\n[gateway] agent model: anthropic/claude-opus-4-6\nready\n")).2.2.2
      "boot\n[gateway] agent model: anthropic/claude-opus-4-6\nready\n"
      "[gateway] agent model: anthropic/claude-opus-4-6" rfl rfl (by decide)
    rw [h]
    decide

/-- Counterexample for C7: with no configured model and an existing gateway
log whose tail contains no "agent model:" line, `_detect_current_model`
returns `""`, not `"unknown"`. -/
theorem detect_current_model_unknown_counterexample :
    getNested (JValue.obj ([] : JObj)) ["agents", "defaults", "model", "primary"]
        = none ∧
    (∀ line ∈ pySplitlines "starting\nready\n", pyIn "agent model:" line = false) ∧
    detectCurrentModel [] (some "starting\nready\n") = "" ∧
    detectCurrentModel [] (some "starting\nready\n") ≠ "unknown" := by
  refine ⟨rfl, by decide, by decide, by decide⟩

theorem EXPENSIVE_MODELS_eq :
    EXPENSIVE_MODELS = ["claude-opus-4-6", "anthropic/claude-opus-4-6"] := by
  norm_num [EXPENSIVE_MODELS, MODEL_COSTS, List.filter]

theorem MID_TIER_MODELS_eq :
    MID_TIER_MODELS
      = ["claude-sonnet-4-6", "anthropic/claude-sonnet-4-6", "gpt-4o",
         "openai/gpt-4o", "claude-haiku-4-5", "anthropic/claude-haiku-4-5",
         "claude-haiku-4-5-20251001", "gpt-4o-mini", "openai/gpt-4o-mini",
         "gpt-mini"] := by
  norm_num [MID_TIER_MODELS, MODEL_COSTS, List.filter]

theorem audit_scenario_findings :
    (audit envScenario).findings.map (fun f => f.id)
      = ["expensive_model", "high_bootstrap_cap", "weak_compaction",
         "heartbeat_inherits_expensive", "high_concurrency"] := by
  decide

theorem audit_scenario_recs :
    (audit envScenario).recommendations.map (fun r => r.id)
      = ["switch_default_model", "aggressive_compaction", "set_heartbeat_model"] := by
  decide

/-- C2 (amended): over the scenario config (primary `claude-opus-4-6`,
compaction `safeguard`, default bootstrap caps, `maxConcurrent=4`,
`subagents.maxConcurrent=8`) with no bootstrap files present, `audit()`
yields findings whose ids are exactly the five-element set
{expensive_model, weak_compaction, high_bootstrap_cap,
heartbeat_inherits_expensive, high_concurrency} (order-independent) — the
fifth finding fires because no heartbeat model is configured and the
primary model is expensive — and its recommendations include
`switch_default_model` and `aggressive_compaction`. -/
theorem audit_scenario_spec :
    (∀ s : String,
      s ∈ (audit envScenario).findings.map (fun f => f.id) ↔
        s ∈ ["expensive_model", "weak_compaction", "high_bootstrap_cap",
             "heartbeat_inherits_expensive", "high_concurrency"]) ∧
    "switch_default_model"
      ∈ (audit envScenario).recommendations.map (fun r => r.id) ∧
    "aggressive_compaction"
      ∈ (audit envScenario).recommendations.map (fun r => r.id) := by
  refine ⟨?_, ?_, ?_⟩
  · intro s
    rw [audit_scenario_findings]
    simp only [List.mem_cons, List.not_mem_nil, or_false]
    tauto
  · rw [audit_scenario_recs]
    decide
  · rw [audit_scenario_recs]
    decide

/-- Counterexample for C2: the audit over the scenario config yields five
findings, not four — `heartbeat_inherits_expensive` also fires (no
heartbeat model is set and the expensive primary is inherited), so the id
set is not exactly the claimed four-element set. -/
theorem audit_scenario_counterexample :
    (audit envScenario).findings.map (fun f => f.id)
        = ["expensive_model", "high_bootstrap_cap", "weak_compaction",
           "heartbeat_inherits_expensive", "high_concurrency"] ∧
    "heartbeat_inherits_expensive"
        ∈ (audit envScenario).findings.map (fun f => f.id) ∧
    "heartbeat_inherits_expensive"
        ∉ ["expensive_model", "weak_compaction", "high_bootstrap_cap",
           "high_concurrency"] := by
  refine ⟨audit_scenario_findings, ?_, by decide⟩
  rw [audit_scenario_findings]
  decide

theorem isPrefixOf_self_append (p t : List Char) : p.isPrefixOf (p ++ t) = true := by
  induction p with
  | nil => simp [List.isPrefixOf]
  | cons c rest ih => simp [List.isPrefixOf, ih]

theorem listContains_of_prefix_at (pre pat rest : List Char)
    (h : pat.isPrefixOf rest = true) : listContains pat (pre ++ rest) = true := by
  induction pre with
  | nil =>
    cases rest with
    | nil =>
      cases pat with
      | nil => rfl
      | cons c t => simp [List.isPrefixOf] at h
    | cons c t => simp [listContains, h]
  | cons c pre' ih => simp [listContains, ih]

theorem pyIn_bloat_of_prefix (s : String) :
    pyIn "bloat" ("Bootstrap bloat: " ++ s) = true := by
  rw [pyIn, String.data_append,
    show ("Bootstrap bloat: " : String).data
      = ("Bootstrap " : String).data ++ ("bloat: " : String).data from by decide,
    List.append_assoc]
  apply listContains_of_prefix_at
  rw [show ("bloat: " : String).data
      = ("bloat" : String).data ++ (": " : String).data from by decide,
    List.append_assoc]
  exact isPrefixOf_self_append _ _

theorem fmtFloat_fifteen : fmtFloat 15 = "15.0" := by
  norm_num [fmtFloat]
  rfl

theorem audit_cost_of_expensive (env : AuditEnv)
    (h : (audit env).current_model ∈ EXPENSIVE_MODELS) :
    (audit env).model_cost_per_m_input = 15 := by
  have hc : (audit env).model_cost_per_m_input
      = ((lookupCost (audit env).current_model).map Prod.fst).getD 0 := rfl
  rw [EXPENSIVE_MODELS_eq] at h
  rcases List.mem_cons.mp h with h1 | h1
  · rw [hc, h1]; decide
  · rcases List.mem_cons.mp h1 with h2 | h2
    · rw [hc, h2]; decide
    · simp at h2

theorem expensive_alert_no_bloat (env : AuditEnv)
    (h : (audit env).current_model ∈ EXPENSIVE_MODELS) :
    pyIn "bloat" ("Expensive model in use: " ++ (audit env).current_model
      ++ " ($" ++ fmtFloat (audit env).model_cost_per_m_input ++ "/M input)")
      = false := by
  rw [audit_cost_of_expensive env h, fmtFloat_fifteen]
  rw [EXPENSIVE_MODELS_eq] at h
  rcases List.mem_cons.mp h with h1 | h1
  · rw [h1]; decide
  · rcases List.mem_cons.mp h1 with h2 | h2
    · rw [h2]; decide
    · simp at h2

theorem listContains_nil_pat (m : List Char) : listContains [] m = true := by
  induction m with
  | nil => rfl
  | cons c rest ih => simp [listContains, List.isPrefixOf]

theorem isPrefixOf_append_left (p l m : List Char)
    (h : p.isPrefixOf l = true) : p.isPrefixOf (l ++ m) = true := by
  induction p generalizing l with
  | nil => simp [List.isPrefixOf]
  | cons c rest ih =>
    cases l with
    | nil => simp [List.isPrefixOf] at h
    | cons d t =>
      simp only [List.isPrefixOf, Bool.and_eq_true] at h
      simp only [List.cons_append, List.isPrefixOf, Bool.and_eq_true]
      exact ⟨h.1, ih t h.2⟩

theorem listContains_append_left (p l m : List Char)
    (h : listContains p l = true) : listContains p (l ++ m) = true := by
  induction l with
  | nil =>
    simp only [listContains, List.isEmpty_eq_true] at h
    subst h
    exact listContains_nil_pat m
  | cons c rest ih =>
    simp only [listContains, Bool.or_eq_true] at h
    rcases h with h | h
    · simp only [List.cons_append, listContains, Bool.or_eq_true]
      exact Or.inl (isPrefixOf_append_left _ _ _ h)
    · simp only [List.cons_append, listContains, Bool.or_eq_true]
      exact Or.inr (ih h)

theorem pyIn_append_left (pat s t : String) (h : pyIn pat s = true) :
    pyIn pat (s ++ t) = true := by
  rw [pyIn, String.data_append]
  exact listContains_append_left _ _ _ h

/-- C8 (amended): for a governor state whose first recorded baseline has
positive `bootstrap_total_chars`, `run_governor` emits an alert containing
the word "bloat" exactly when the current bootstrap character total is
STRICTLY greater than 1.2 × the baseline total
(`current_chars > baseline_chars * 1.2`, cost_governor.py:624) — at exactly
20% growth no alert is emitted (see the counterexample). -/
theorem governor_bloat_alert_spec (env : AuditEnv) (st : GovState) (b : Baseline)
    (hb : st.baselines.head? = some b) (hpos : 0 < b.bootstrap_total_chars) :
    (∃ a ∈ (runGovernor env st true).1.alerts, pyIn "bloat" a = true) ↔
      (b.bootstrap_total_chars : ℚ) * (6/5)
        < ((audit env).bootstrap_total_chars : ℚ) := by
  simp only [runGovernor, hb]
  constructor
  · rintro ⟨a, ha, hbl⟩
    rcases List.mem_append.mp ha with h12 | h3
    · rcases List.mem_append.mp h12 with h1 | h2
      · by_cases hexp : (audit env).current_model ∈ EXPENSIVE_MODELS
        · rw [if_pos hexp, List.mem_singleton] at h1
          subst h1
          rw [expensive_alert_no_bloat env hexp] at hbl
          exact Bool.noConfusion hbl
        · rw [if_neg hexp] at h1
          exact absurd h1 (List.not_mem_nil a)
      · by_cases hcond : 0 < b.bootstrap_total_chars
            ∧ (b.bootstrap_total_chars : ℚ) * (6/5)
              < ((audit env).bootstrap_total_chars : ℚ)
        · exact hcond.2
        · rw [if_neg hcond] at h2
          exact absurd h2 (List.not_mem_nil a)
    · by_cases hcmp : isSafeguard (compactionModeVal env.config) = true
      · rw [if_pos hcmp, List.mem_singleton] at h3
        subst h3
        exact absurd hbl (by decide)
      · rw [if_neg hcmp] at h3
        exact absurd h3 (List.not_mem_nil a)
  · intro hlt
    rw [if_pos (show 0 < b.bootstrap_total_chars ∧
      (b.bootstrap_total_chars : ℚ) * (6/5)
        < ((audit env).bootstrap_total_chars : ℚ) from ⟨hpos, hlt⟩)]
    refine ⟨_, List.mem_append.mpr (Or.inl (List.mem_append.mpr
      (Or.inr (List.mem_singleton.mpr rfl)))), ?_⟩
    exact pyIn_append_left "bloat" _ _ (pyIn_append_left "bloat" _ _
      (pyIn_append_left "bloat" _ _ (pyIn_append_left "bloat" _ _ (by decide))))

/-- Witness for C8: with a first baseline of 4 characters and a current
bootstrap total of 6 (more than 20% growth), the governor emits a
bloat-containing alert. -/
theorem governor_bloat_alert_spec_witness :
    stBloat4.baselines.head? = some baseline4 ∧
    0 < baseline4.bootstrap_total_chars ∧
    ∃ a ∈ (runGovernor envBloat stBloat4 true).1.alerts, pyIn "bloat" a = true := by
  refine ⟨rfl, by decide, ?_⟩
  apply (governor_bloat_alert_spec envBloat stBloat4 baseline4 rfl (by decide)).mpr
  rw [show (audit envBloat).bootstrap_total_chars = 6 from by decide]
  norm_num [baseline4, baseline5]

/-- Counterexample for C8: with a first baseline of 5 characters and a
current total of exactly 6 = 1.2 × 5 (growth of exactly 20%, so "at least
20%" holds), `run_governor` emits no alert containing "bloat" — the source
condition is strict. -/
theorem governor_bloat_alert_counterexample :
    (audit envBloat).bootstrap_total_chars = 6 ∧
    (baseline5.bootstrap_total_chars : ℚ) * (6/5)
      ≤ ((audit envBloat).bootstrap_total_chars : ℚ) ∧
    (runGovernor envBloat stBloat5 true).1.alerts.all
      (fun a => !(pyIn "bloat" a)) = true := by
  have h6 : (audit envBloat).bootstrap_total_chars = 6 := by decide
  refine ⟨h6, ?_, ?_⟩
  · rw [h6, show baseline5.bootstrap_total_chars = 5 from rfl]
    norm_num
  · have hcond : ¬(0 < baseline5.bootstrap_total_chars ∧
        (baseline5.bootstrap_total_chars : ℚ) * (6/5)
          < ((audit envBloat).bootstrap_total_chars : ℚ)) := by
      rw [h6, show baseline5.bootstrap_total_chars = 5 from rfl]
      norm_num
    simp only [runGovernor, EXPENSIVE_MODELS_eq,
      show stBloat5.baselines.head? = some baseline5 from rfl]
    rw [if_neg hcond]
    decide

theorem auditModelCheck_finding_ids (m : String) (c : Option (ℚ × ℚ)) :
    ∀ f ∈ (auditModelCheck m c).1,
      f.id = "expensive_model" ∨ f.id = "mid_tier_model" := by
  intro f hf
  unfold auditModelCheck at hf
  split at hf <;> (try split at hf) <;> simp_all

theorem auditModelCheck_rec_ids (m : String) (c : Option (ℚ × ℚ)) :
    ∀ r ∈ (auditModelCheck m c).2, r.id = "switch_default_model" := by
  intro r hr
  unfold auditModelCheck at hr
  split at hr <;> (try split at hr) <;> simp_all

theorem auditCapCheck_ids (cm ct : Int) :
    ∀ f ∈ auditCapCheck cm ct, f.id = "high_bootstrap_cap" := by
  intro f hf
  unfold auditCapCheck at hf
  split at hf <;> simp_all

theorem auditCompactionCheck_finding_ids (cfg : JObj) :
    ∀ f ∈ (auditCompactionCheck cfg).1, f.id = "weak_compaction" := by
  intro f hf
  unfold auditCompactionCheck at hf
  split at hf <;> simp_all

theorem auditCompactionCheck_rec_ids (cfg : JObj) :
    ∀ r ∈ (auditCompactionCheck cfg).2, r.id = "aggressive_compaction" := by
  intro r hr
  unfold auditCompactionCheck at hr
  split at hr <;> simp_all

theorem auditHeartbeatCheck_finding_ids (cfg : JObj) (m : String) :
    ∀ f ∈ (auditHeartbeatCheck cfg m).1,
      f.id = "expensive_heartbeat" ∨ f.id = "heartbeat_inherits_expensive" := by
  intro f hf
  unfold auditHeartbeatCheck at hf
  split at hf <;> (try split at hf) <;> simp_all

theorem auditHeartbeatCheck_rec_ids (cfg : JObj) (m : String) :
    ∀ r ∈ (auditHeartbeatCheck cfg m).2,
      r.id = "cheap_heartbeat" ∨ r.id = "set_heartbeat_model" := by
  intro r hr
  unfold auditHeartbeatCheck at hr
  split at hr <;> (try split at hr) <;> simp_all

theorem auditConcurrencyCheck_ids (mc ms : Int) :
    ∀ f ∈ auditConcurrencyCheck mc ms, f.id = "high_concurrency" := by
  intro f hf
  unfold auditConcurrencyCheck at hf
  split at hf <;> simp_all

theorem auditBloatCheck_finding_cond (b : BootstrapInfo) :
    ∀ f ∈ (auditBloatCheck b).1,
      f.id = "bootstrap_bloat"
        ∧ RECOMMENDED_BOOTSTRAP_TOTAL_MAX_CHARS < (b.total_chars : Int) := by
  intro f hf
  unfold auditBloatCheck at hf
  split at hf <;> simp_all

theorem auditBloatCheck_finding_mem (b : BootstrapInfo) :
    "bootstrap_bloat" ∈ (auditBloatCheck b).1.map (fun f => f.id) ↔
      RECOMMENDED_BOOTSTRAP_TOTAL_MAX_CHARS < (b.total_chars : Int) := by
  unfold auditBloatCheck
  split <;> simp_all

theorem filter_big_isEmpty_iff (l : List FileStat) :
    ((l.filter (fun f => 3000 < f.chars)).isEmpty = false) ↔
      ∃ f ∈ l, 3000 < f.chars := by
  rw [← Bool.not_eq_true, List.isEmpty_iff]
  simp [List.filter_eq_nil_iff]

theorem auditBloatCheck_rec_mem (b : BootstrapInfo) :
    "shrink_bootstrap" ∈ (auditBloatCheck b).2.map (fun r => r.id) ↔
      (RECOMMENDED_BOOTSTRAP_TOTAL_MAX_CHARS < (b.total_chars : Int) ∧
        ∃ f ∈ b.files, 3000 < f.chars) := by
  unfold auditBloatCheck
  split
  · rename_i hc
    cases he : (b.files.filter (fun f => 3000 < f.chars)).isEmpty
    · simp [he, hc, (filter_big_isEmpty_iff b.files).mp he]
    · simp only [he, if_true]
      simp only [List.map_nil, List.not_mem_nil, false_iff, not_and]
      intro _ hex
      have hne : ((b.files.filter (fun f => 3000 < f.chars)).isEmpty = false) :=
        (filter_big_isEmpty_iff b.files).mpr hex
      rw [he] at hne
      exact Bool.noConfusion hne
  · rename_i hc
    simp_all

theorem auditBloatCheck_rec_fields (b : BootstrapInfo) :
    ∀ r ∈ (auditBloatCheck b).2,
      r.id = "shrink_bootstrap" ∧ r.impact = "medium" ∧ r.savings_pct = 20 ∧
      r.detail = "Biggest files: " ++ String.intercalate ", "
          (((b.files.filter (fun f => 3000 < f.chars)).take 3).map (fun f => f.file))
        ++ ". Move long policies/docs to on-demand memory/*.md files. Keep AGENTS.md to 1-2 pages of operating rules." := by
  intro r hr
  unfold auditBloatCheck at hr
  split at hr <;> simp_all

theorem pairwise_chars_mergeSort (l : List FileStat) :
    List.Pairwise (fun a b : FileStat => b.chars ≤ a.chars)
      (l.mergeSort (fun a b => decide (b.chars ≤ a.chars))) := by
  refine (List.sorted_mergeSort ?_ ?_ l).imp (fun h => of_decide_eq_true h)
  · intro a b c hab hbc
    simp only [decide_eq_true_eq] at *
    omega
  · intro a b
    simp only [Bool.or_eq_true, decide_eq_true_eq]
    omega

theorem audit_findings_decomp (env : AuditEnv) :
    (audit env).findings
      = (auditModelCheck (detectCurrentModel env.config env.gatewayLog)
            (lookupCost (detectCurrentModel env.config env.gatewayLog))).1
        ++ (auditBloatCheck (measureBootstrapFiles env.config env.workspace)).1
        ++ auditCapCheck
            (getIntD env.config ["agents", "defaults", "bootstrapMaxChars"]
              DEFAULT_BOOTSTRAP_MAX_CHARS)
            (getIntD env.config ["agents", "defaults", "bootstrapTotalMaxChars"]
              DEFAULT_BOOTSTRAP_TOTAL_MAX_CHARS)
        ++ (auditCompactionCheck env.config).1
        ++ (auditHeartbeatCheck env.config
            (detectCurrentModel env.config env.gatewayLog)).1
        ++ auditConcurrencyCheck
            (getIntD env.config ["agents", "defaults", "maxConcurrent"] 1)
            (getIntD env.config
              ["agents", "defaults", "subagents", "maxConcurrent"] 1) := rfl

theorem audit_recs_decomp (env : AuditEnv) :
    (audit env).recommendations
      = (auditModelCheck (detectCurrentModel env.config env.gatewayLog)
            (lookupCost (detectCurrentModel env.config env.gatewayLog))).2
        ++ (auditBloatCheck (measureBootstrapFiles env.config env.workspace)).2
        ++ (auditCompactionCheck env.config).2
        ++ (auditHeartbeatCheck env.config
            (detectCurrentModel env.config env.gatewayLog)).2 := rfl

/-- C9 (amended): in `audit()`, the bootstrap bloat rule emits the warning
finding `bootstrap_bloat` exactly when the aggregate bootstrap character
total exceeds 30,000, and emits the medium-impact recommendation
`shrink_bootstrap` (savings_pct = 20) exactly when additionally some
individual bootstrap file exceeds 3,000 chars (both checks live inside the
same `total > 30,000` branch, cost_governor.py:227-256 — a single
oversized file below a 30,000 total produces no recommendation, see the
counterexample); the recommendation names up to the three largest
offenders (the files list is sorted by size, descending). -/
theorem audit_bootstrap_rules_spec (env : AuditEnv) :
    ("bootstrap_bloat" ∈ (audit env).findings.map (fun f => f.id) ↔
      RECOMMENDED_BOOTSTRAP_TOTAL_MAX_CHARS
        < ((measureBootstrapFiles env.config env.workspace).total_chars : Int)) ∧
    ("shrink_bootstrap" ∈ (audit env).recommendations.map (fun r => r.id) ↔
      (RECOMMENDED_BOOTSTRAP_TOTAL_MAX_CHARS
          < ((measureBootstrapFiles env.config env.workspace).total_chars : Int) ∧
        ∃ f ∈ (measureBootstrapFiles env.config env.workspace).files,
          3000 < f.chars)) ∧
    (∀ r ∈ (audit env).recommendations, r.id = "shrink_bootstrap" →
      r.impact = "medium" ∧ r.savings_pct = 20 ∧
      r.detail = "Biggest files: " ++ String.intercalate ", "
          ((((measureBootstrapFiles env.config env.workspace).files.filter
              (fun f => 3000 < f.chars)).take 3).map (fun f => f.file))
        ++ ". Move long policies/docs to on-demand memory/*.md files. Keep AGENTS.md to 1-2 pages of operating rules.") ∧
    List.Pairwise (fun a b : FileStat => b.chars ≤ a.chars)
      (measureBootstrapFiles env.config env.workspace).files := by
  refine ⟨?_, ?_, ?_, ?_⟩
  · rw [audit_findings_decomp env]
    simp only [List.map_append, List.mem_append]
    constructor
    · rintro (((((h | h) | h) | h) | h) | h)
      · obtain ⟨f, hf, hid⟩ := List.mem_map.mp h
        rcases auditModelCheck_finding_ids _ _ f hf with h1 | h1 <;>
          (rw [h1] at hid; exact absurd hid (by decide))
      · exact (auditBloatCheck_finding_mem _).mp h
      · obtain ⟨f, hf, hid⟩ := List.mem_map.mp h
        rw [auditCapCheck_ids _ _ f hf] at hid
        exact absurd hid (by decide)
      · obtain ⟨f, hf, hid⟩ := List.mem_map.mp h
        rw [auditCompactionCheck_finding_ids _ f hf] at hid
        exact absurd hid (by decide)
      · obtain ⟨f, hf, hid⟩ := List.mem_map.mp h
        rcases auditHeartbeatCheck_finding_ids _ _ f hf with h1 | h1 <;>
          (rw [h1] at hid; exact absurd hid (by decide))
      · obtain ⟨f, hf, hid⟩ := List.mem_map.mp h
        rw [auditConcurrencyCheck_ids _ _ f hf] at hid
        exact absurd hid (by decide)
    · intro hc
      exact Or.inl (Or.inl (Or.inl (Or.inl
        (Or.inr ((auditBloatCheck_finding_mem _).mpr hc)))))
  · rw [audit_recs_decomp env]
    simp only [List.map_append, List.mem_append]
    constructor
    · rintro (((h | h) | h) | h)
      · obtain ⟨r, hr, hid⟩ := List.mem_map.mp h
        rw [auditModelCheck_rec_ids _ _ r hr] at hid
        exact absurd hid (by decide)
      · exact (auditBloatCheck_rec_mem _).mp h
      · obtain ⟨r, hr, hid⟩ := List.mem_map.mp h
        rw [auditCompactionCheck_rec_ids _ r hr] at hid
        exact absurd hid (by decide)
      · obtain ⟨r, hr, hid⟩ := List.mem_map.mp h
        rcases auditHeartbeatCheck_rec_ids _ _ r hr with h1 | h1 <;>
          (rw [h1] at hid; exact absurd hid (by decide))
    · intro hc
      exact Or.inl (Or.inl (Or.inr ((auditBloatCheck_rec_mem _).mpr hc)))
  · intro r hr hid
    rw [audit_recs_decomp env] at hr
    rcases List.mem_append.mp hr with hr' | hr'
    · rcases List.mem_append.mp hr' with hr'' | hr''
      · rcases List.mem_append.mp hr'' with hr3 | hr3
        · rw [auditModelCheck_rec_ids _ _ r hr3] at hid
          exact absurd hid (by decide)
        · exact (auditBloatCheck_rec_fields _ r hr3).2
      · rw [auditCompactionCheck_rec_ids _ r hr''] at hid
        exact absurd hid (by decide)
    · rcases auditHeartbeatCheck_rec_ids _ _ r hr' with h1 | h1 <;>
        (rw [h1] at hid; exact absurd hid (by decide))
  · exact pairwise_chars_mergeSort _


theorem measure_abs (s : String) (hne : s ≠ "")
    (hgl : s.data.getLast? ≠ some (Char.ofNat 10))
    (hcnt : s.data.count (Char.ofNat 10) = 0) :
    measureBootstrapFiles []
      (fun m => if m = "AGENTS.md" then some s else none)
      = { files := [⟨"AGENTS.md", s.length, 1, s.length / 4⟩]
          total_chars := s.length
          total_lines := 1
          total_est_tokens := s.length / 4
          configured_max_per_file := 20000
          configured_total_max := 150000 } := by
  simp [measureBootstrapFiles, BOOTSTRAP_FILES, getIntD, getNested, lookupJ,
    hne, hgl, hcnt, DEFAULT_BOOTSTRAP_MAX_CHARS, DEFAULT_BOOTSTRAP_TOTAL_MAX_CHARS]

theorem measure_one (n : Nat) (c : Char) (hn : n ≠ 0)
    (hc : (c == Char.ofNat 10) = false) :
    measureBootstrapFiles []
      (fun m => if m = "AGENTS.md" then some (String.mk (List.replicate n c)) else none)
      = { files := [⟨"AGENTS.md", n, 1, n / 4⟩]
          total_chars := n
          total_lines := 1
          total_est_tokens := n / 4
          configured_max_per_file := 20000
          configured_total_max := 150000 } := by
  have hne : (String.mk (List.replicate n c)) ≠ "" := by
    intro h
    have h2 := congrArg String.length h
    simp [String.length] at h2
    exact hn h2
  have hgl : (String.mk (List.replicate n c)).data.getLast? ≠ some (Char.ofNat 10) := by
    show (List.replicate n c).getLast? ≠ some (Char.ofNat 10)
    rw [List.getLast?_replicate, if_neg hn]
    simpa using ne_of_beq_false hc
  have hcnt : (String.mk (List.replicate n c)).data.count (Char.ofNat 10) = 0 := by
    show (List.replicate n c).count (Char.ofNat 10) = 0
    rw [List.count_replicate, hc]
    simp
  rw [measure_abs (String.mk (List.replicate n c)) hne hgl hcnt]
  simp [String.length]

theorem envBig_measure_eq :
    measureBootstrapFiles envBig.config envBig.workspace
      = { files := [⟨"AGENTS.md", 30001, 1, 7500⟩]
          total_chars := 30001
          total_lines := 1
          total_est_tokens := 7500
          configured_max_per_file := 20000
          configured_total_max := 150000 } :=
  measure_one 30001 (Char.ofNat 120) (by decide) (by decide)

theorem envSmall_measure_eq :
    measureBootstrapFiles envSmall.config envSmall.workspace
      = { files := [⟨"AGENTS.md", 5000, 1, 1250⟩]
          total_chars := 5000
          total_lines := 1
          total_est_tokens := 1250
          configured_max_per_file := 20000
          configured_total_max := 150000 } :=
  measure_one 5000 (Char.ofNat 120) (by decide) (by decide)

theorem audit_bootstrap_rules_spec_witness :
    "bootstrap_bloat" ∈ (audit envBig).findings.map (fun f => f.id) ∧
    "shrink_bootstrap" ∈ (audit envBig).recommendations.map (fun r => r.id) := by
  have h := audit_bootstrap_rules_spec envBig
  have hc : RECOMMENDED_BOOTSTRAP_TOTAL_MAX_CHARS
      < ((measureBootstrapFiles envBig.config envBig.workspace).total_chars : Int) := by
    rw [envBig_measure_eq]
    decide
  have hex : ∃ f ∈ (measureBootstrapFiles envBig.config envBig.workspace).files,
      3000 < f.chars := by
    rw [envBig_measure_eq]
    exact ⟨⟨"AGENTS.md", 30001, 1, 7500⟩, List.mem_singleton.mpr rfl, by decide⟩
  exact ⟨h.1.mpr hc, h.2.1.mpr ⟨hc, hex⟩⟩

/-- C9 counterexample: with a single 5,000-character bootstrap file there is
an individual file over 3,000 chars, yet no `shrink_bootstrap` recommendation
is emitted, because that rule is nested inside the `total > 30,000` branch. -/
theorem audit_bootstrap_rules_counterexample :
    (∃ f ∈ (measureBootstrapFiles envSmall.config envSmall.workspace).files,
      3000 < f.chars) ∧
    "shrink_bootstrap" ∉ (audit envSmall).recommendations.map (fun r => r.id) := by
  constructor
  · rw [envSmall_measure_eq]
    exact ⟨⟨"AGENTS.md", 5000, 1, 1250⟩, List.mem_singleton.mpr rfl, by decide⟩
  · intro hmem
    rw [audit_recs_decomp] at hmem
    simp only [List.map_append, List.mem_append] at hmem
    rcases hmem with ((h | h) | h) | h
    · obtain ⟨r, hr, hid⟩ := List.mem_map.mp h
      rw [auditModelCheck_rec_ids _ _ r hr] at hid
      exact absurd hid (by decide)
    · have hlt := ((auditBloatCheck_rec_mem _).mp h).1
      rw [envSmall_measure_eq] at hlt
      exact absurd hlt (by decide)
    · obtain ⟨r, hr, hid⟩ := List.mem_map.mp h
      rw [auditCompactionCheck_rec_ids _ r hr] at hid
      exact absurd hid (by decide)
    · obtain ⟨r, hr, hid⟩ := List.mem_map.mp h
      rcases auditHeartbeatCheck_rec_ids _ _ r hr with h1 | h1 <;>
        (rw [h1] at hid; exact absurd hid (by decide))
